import Mathlib

/-!
Verification development for the gnbsim 5G SA gNB/UE simulator.

This file gives a shallow embedding, in Lean 4, of the protocol codecs of the
simulator and proves or refutes a fixed list of properties about them:

* the ALIGNED PER primitives of package per (BitField merging and shifting,
  constrained whole numbers, non-negative binary integers);
* the GTPv1-U header codec of package gtp (Encap / Decap);
* the NGAP protocol-IE decoders of package ngap (AMF-UE-NGAP-ID and
  RAN-UE-NGAP-ID handling, camper table);
* the NAS codec of package nas (security-protected header, AES-CMAC based
  integrity, the TS 33.501 key-derivation functions, the 5GMM receive state
  machine).

Conventions used throughout:

* a Go byte slice is a List Nat whose members are < 256; functions that
  build bytes reduce modulo 256 exactly where the Go code performs a
  machine-width cast (byte(x), uint16(x), uint32(x), uint(x));
* Go functions that can panic at run time (slice indexing or slicing out of
  range, nil-pointer dereference) are embedded as Option / Except valued
  functions, where none (resp. the error) marks the panic;
* the debug-printing machinery of the sources (dprint, indent, dbgLevel) has
  no observable effect on the protocol state and is not modelled;
* external library calls (crypto/aes, aead/cmac, crypto/sha256, crypto/hmac)
  are embedded by executable Lean implementations of the corresponding
  standard algorithms (AES-128, AES-CMAC of RFC 4493, SHA-256 of FIPS 180-4,
  HMAC of RFC 2104).
-/

namespace Gnbsim

/-! ## Package per: basic byte and bit-field utilities

Embedding of encoding/per/per.go (the BitField-based revision).
-/

/-- BitField mirrors per.BitField: a byte string together with a length in
bits.  Len = 0 is also used by the sources as an "octet aligned" marker. -/
structure BitField where
  Value : List Nat
  Len : Nat
deriving Repr, DecidableEq

/-- One step of per.ShiftLeft: every byte is shifted left by one bit and
receives the top bit of its successor.  The Go loop walks the slice from the
last byte to the first carrying an overflow flag; written functionally from
the head, each byte x followed by y becomes 2x mod 256 plus the top bit
of y. -/
def shiftLeft1 : List Nat → List Nat
  | [] => []
  | [x] => [2 * x % 256]
  | x :: y :: r => (2 * x % 256 + y / 128) :: shiftLeft1 (y :: r)

/-- per.ShiftLeft: shiftlen single-bit shifts, then the last shiftlen/8 bytes
are cut off (the Go code pops the final byte shiftlen/8 times).  The bit
length field is not touched by the source either. -/
def ShiftLeft (bf : BitField) (shiftlen : Nat) : BitField :=
  { Value := (Nat.iterate shiftLeft1 shiftlen bf.Value).take
      (bf.Value.length - shiftlen / 8),
    Len := bf.Len }

/-- per.ShiftLeftMost: shift until the first bit occupies the top of the
first octet. -/
def ShiftLeftMost (bf : BitField) : BitField :=
  ShiftLeft bf (8 * bf.Value.length - bf.Len)

/-- per.MergeBitField: concatenate two bit fields.  The Go code builds
zeros(len in1.Value) ++ in2.Value, shifts it left so that in2 starts right
after bit in1.Len, ORs in1.Value into the head bytes, sets the new bit
length, and finally truncates the byte string to (Len-1)/8+1 octets with a
plain slice expression.  That final slice, and the OR loop, panic when the
available bytes are too few (in particular for two empty inputs, where Go
computes (0-1)/8+1 = 1 on integers, as Nat division does here as well);
the panic is modelled by none. -/
def MergeBitField (in1 in2 : BitField) : Option BitField :=
  let v0 : List Nat := List.replicate in1.Value.length 0 ++ in2.Value
  let sh := ShiftLeft ⟨v0, 0⟩ (8 * in1.Value.length - in1.Len)
  if in1.Value.length ≤ sh.Value.length then
    let ored := List.zipWith (fun a b => a ||| b) in1.Value
        (sh.Value.take in1.Value.length) ++ sh.Value.drop in1.Value.length
    let outLen := in1.Len + in2.Len
    let octetlen := (outLen - 1) / 8 + 1
    if octetlen ≤ ored.length then some ⟨ored.take octetlen, outLen⟩ else none
  else none

/-- Go math/bits.Len of a value held in a Nat. -/
def bitsLen (n : Nat) : Nat :=
  if n = 0 then 0 else n.log2 + 1

/-- Reinterpretation of an int64 bit pattern as a Go uint (64 bits). -/
def u64ofInt (x : Int) : Nat :=
  (x % ((2 : Int) ^ 64)).toNat

/-- Go byte(x) for an int64 x: the low 8 bits. -/
def byteOfInt (x : Int) : Nat :=
  (x % (256 : Int)).toNat

/-- Go uint16(x) for an int64 x: the low 16 bits. -/
def u16ofInt (x : Int) : Nat :=
  (x % (65536 : Int)).toNat

/-- Two's-complement wrap of an integer into the int64 range, modelling Go
int64 arithmetic overflow. -/
def wrap64 (x : Int) : Int :=
  (x + (2 : Int) ^ 63) % (2 : Int) ^ 64 - (2 : Int) ^ 63

/-- Helper producing the n low-order bytes of x, big endian; this is the
accumulation performed by the prepend loop of per.EncNonNegativeBinaryInteger.
-/
def nnbiBytes : Nat → Nat → List Nat
  | 0, _ => []
  | n + 1, x => nnbiBytes n (x / 256) ++ [x % 256]

/-- per.EncNonNegativeBinaryInteger: the byte count is bits.Len(input)/8 + 1;
a one-byte count is emitted as the two bytes 0x00, input (as the Go code
does explicitly); otherwise the low bytelen bytes of input, big endian. -/
def EncNonNegativeBinaryInteger (input : Nat) : List Nat :=
  let bytelen := bitsLen input / 8 + 1
  if bytelen = 1 then [0, input % 256]
  else nnbiBytes bytelen input

/-- Error values reported by the per encoders. -/
inductive PerErr where
  | outOfRange
  | notImplemented
deriving Repr, DecidableEq

deriving instance DecidableEq for Except

/-- per.EncConstrainedWholeNumber (11.5 of X.691), embedded with explicit
int64 wrapping where the Go code can overflow.  The bit length is left 0
("octet aligned") in all but the small-range case, exactly as the source
does. -/
def EncConstrainedWholeNumber (input min max : Int) : Except PerErr BitField :=
  if input < min ∨ input > max then .error .outOfRange
  else
    let inputRange : Int := wrap64 (wrap64 (max - min) + 1)
    let inputEnc : Int := wrap64 (input - min)
    if inputRange = 1 then .ok ⟨[], 0⟩
    else if inputRange < 256 then
      .ok ⟨[byteOfInt inputEnc], bitsLen (u64ofInt (wrap64 (inputRange - 1)))⟩
    else if inputRange = 256 then .ok ⟨[byteOfInt inputEnc], 0⟩
    else if inputRange ≤ 65536 then
      .ok ⟨[u16ofInt inputEnc / 256, u16ofInt inputEnc % 256], 0⟩
    else .ok ⟨EncNonNegativeBinaryInteger (u64ofInt input), 0⟩

/-! ## Package gtp: GTPv1-U codec

Embedding of the gtp package revision that carries the HasExtensionHeader
flag and the byte-slice Encap / Decap pair.  Network addresses and the
interface name play no role in header construction and are omitted from the
record. -/

/-- GTP mirrors the gtp.GTP tunnel descriptor fields used by the codec.
LocalTEID, PeerTEID are uint32 values, QosFlowID a uint8 value; they are
held as Nat and reduced at the characters where the Go code casts. -/
structure GTP where
  LocalTEID : Nat
  PeerTEID : Nat
  QosFlowID : Nat
  HasExtensionHeader : Bool
deriving Repr, DecidableEq

/-- Big-endian bytes of a uint32 value (binary.BigEndian.PutUint32). -/
def u32bytes (n : Nat) : List Nat :=
  [n / 16777216 % 256, n / 65536 % 256, n / 256 % 256, n % 256]

/-- gtp.encULPduSessionInformation: UL PDU (type 1) flags and the QoS flow
identifier. -/
def encULPduSessionInformation (g : GTP) : List Nat :=
  [16, g.QosFlowID % 256]

/-- gtp.encExtensionHeader for the two supported extension header types. -/
def encExtensionHeader (g : GTP) (extHeaderType : Nat) : List Nat :=
  if extHeaderType = 0 then [0]
  else if extHeaderType = 133 then
    let content := encULPduSessionInformation g
    if content.length % 4 ≠ 2 then [133]
    else [133, (content.length + 2) / 4] ++ content
  else []

/-- gtp.encGTPHeader: version/flags, message type 0xff, 16-bit length over
payload plus extension bytes, peer TEID, then the extension chain (three
padding octets for sequence number and N-PDU number, the PDU Session
Container, and the terminating next-header type). -/
def encGTPHeader (g : GTP) (payloadLen : Nat) : List Nat :=
  let versAndFlags : Nat := 32 + 16 + (if g.HasExtensionHeader then 4 else 0)
  let extHeaders : List Nat :=
    (if g.HasExtensionHeader then [133] else []) ++ [0]
  let extHead0 := (extHeaders.map (encExtensionHeader g)).flatten
  let extHead :=
    (if g.HasExtensionHeader then [0, 0, 0] else []) ++ extHead0
  let gtpLen := (payloadLen + extHead.length) % 65536
  [versAndFlags, 255] ++ [gtpLen / 256, gtpLen % 256] ++
    u32bytes (g.PeerTEID % 4294967296) ++ extHead

/-- gtp.decGTPHeader: read the version/flags octet and skip the rest of the
header, 7 further bytes without the E flag and 15 with it.  Reading from a
too-short slice panics in Go and is modelled by none. -/
def decGTPHeader (payload : List Nat) : Option (List Nat) :=
  match payload with
  | [] => none
  | v :: rest =>
    if v &&& 4 = 0 then
      if 7 ≤ rest.length then some (rest.drop 7) else none
    else
      if 15 ≤ rest.length then some (rest.drop 15) else none

/-- gtp.Encap: prepend the GTP-U header to the raw payload. -/
def Encap (g : GTP) (raw : List Nat) : List Nat :=
  encGTPHeader g raw.length ++ raw

/-- gtp.Decap: strip the GTP-U header. -/
def Decap (g : GTP) (payload : List Nat) : Option (List Nat) :=
  decGTPHeader payload

/-! ## Cryptographic primitives

Executable embeddings of the external library calls made by the nas
package: SHA-256 (FIPS 180-4) and HMAC (RFC 2104) for crypto/sha256 and
crypto/hmac, AES-128 (FIPS 197) for crypto/aes, and AES-CMAC (RFC 4493)
for github.com/aead/cmac.  Words are Nat values reduced modulo the word
size. -/

/-- Reduction to a 32-bit word. -/
def w32 (x : Nat) : Nat :=
  x % 4294967296

/-- Right rotation of a 32-bit word. -/
def rotr32 (x n : Nat) : Nat :=
  w32 (x / 2 ^ n + x % 2 ^ n * 2 ^ (32 - n))

def shaK : List Nat :=
  [1116352408, 1899447441, 3049323471, 3921009573, 961987163, 1508970993, 2453635748, 2870763221, 3624381080, 310598401, 607225278, 1426881987, 1925078388, 2162078206, 2614888103, 3248222580, 3835390401, 4022224774, 264347078, 604807628, 770255983, 1249150122, 1555081692, 1996064986, 2554220882, 2821834349, 2952996808, 3210313671, 3336571891, 3584528711, 113926993, 338241895, 666307205, 773529912, 1294757372, 1396182291, 1695183700, 1986661051, 2177026350, 2456956037, 2730485921, 2820302411, 3259730800, 3345764771, 3516065817, 3600352804, 4094571909, 275423344, 430227734, 506948616, 659060556, 883997877, 958139571, 1322822218, 1537002063, 1747873779, 1955562222, 2024104815, 2227730452, 2361852424, 2428436474, 2756734187, 3204031479, 3329325298]

def shaH0 : List Nat :=
  [1779033703, 3144134277, 1013904242, 2773480762, 1359893119, 2600822924, 528734635, 1541459225]

/-- SHA-256 working state. -/
structure Sha256State where
  a : Nat
  b : Nat
  c : Nat
  d : Nat
  e : Nat
  f : Nat
  g : Nat
  h : Nat
deriving Repr, DecidableEq

def shaInit : Sha256State :=
  ⟨1779033703, 3144134277, 1013904242, 2773480762,
    1359893119, 2600822924, 528734635, 1541459225⟩

def shaBigSigma0 (x : Nat) : Nat :=
  rotr32 x 2 ^^^ rotr32 x 13 ^^^ rotr32 x 22

def shaBigSigma1 (x : Nat) : Nat :=
  rotr32 x 6 ^^^ rotr32 x 11 ^^^ rotr32 x 25

def shaSmallSigma0 (x : Nat) : Nat :=
  rotr32 x 7 ^^^ rotr32 x 18 ^^^ x / 2 ^ 3

def shaSmallSigma1 (x : Nat) : Nat :=
  rotr32 x 17 ^^^ rotr32 x 19 ^^^ x / 2 ^ 10

def shaCh (x y z : Nat) : Nat :=
  (x &&& y) ^^^ ((x ^^^ 4294967295) &&& z)

def shaMaj (x y z : Nat) : Nat :=
  (x &&& y) ^^^ (x &&& z) ^^^ (y &&& z)

/-- Big-endian 32-bit words of a byte string. -/
def bytesToWords : List Nat → List Nat
  | a :: b :: c :: d :: r =>
    (a * 16777216 + b * 65536 + c * 256 + d) :: bytesToWords r
  | _ => []

/-- Big-endian bytes of a word list. -/
def wordsToBytes (l : List Nat) : List Nat :=
  (l.map (fun x => [x / 16777216 % 256, x / 65536 % 256, x / 256 % 256, x % 256])).flatten

/-- Message-schedule extension; the accumulator holds the words produced so
far, latest first. -/
def shaExtend : Nat → List Nat → List Nat
  | 0, rw => rw
  | n + 1, rw =>
    shaExtend n (w32 (shaSmallSigma1 (rw.getD 1 0) + rw.getD 6 0 +
      shaSmallSigma0 (rw.getD 14 0) + rw.getD 15 0) :: rw)

def shaRound (st : Sha256State) (k w : Nat) : Sha256State :=
  let t1 := w32 (st.h + shaBigSigma1 st.e + shaCh st.e st.f st.g + k + w)
  let t2 := w32 (shaBigSigma0 st.a + shaMaj st.a st.b st.c)
  ⟨w32 (t1 + t2), st.a, st.b, st.c, w32 (st.d + t1), st.e, st.f, st.g⟩

def shaAdd (x y : Sha256State) : Sha256State :=
  ⟨w32 (x.a + y.a), w32 (x.b + y.b), w32 (x.c + y.c), w32 (x.d + y.d),
    w32 (x.e + y.e), w32 (x.f + y.f), w32 (x.g + y.g), w32 (x.h + y.h)⟩

def shaBlock (st : Sha256State) (block : List Nat) : Sha256State :=
  let w16 := bytesToWords block
  let ws := (shaExtend 48 w16.reverse).reverse
  let fin := (List.zip shaK ws).foldl (fun s kw => shaRound s kw.1 kw.2) st
  shaAdd st fin

/-- The eight big-endian bytes of a 64-bit value. -/
def u64bytes (n : Nat) : List Nat :=
  [n / 2 ^ 56 % 256, n / 2 ^ 48 % 256, n / 2 ^ 40 % 256, n / 2 ^ 32 % 256,
    n / 2 ^ 24 % 256, n / 2 ^ 16 % 256, n / 2 ^ 8 % 256, n % 256]

/-- FIPS 180-4 padding: a 1 bit, zeros to 56 mod 64, and the bit length. -/
def shaPad (msg : List Nat) : List Nat :=
  msg ++ [128] ++ List.replicate ((119 - msg.length % 64) % 64) 0 ++
    u64bytes (8 * msg.length % 2 ^ 64)

def shaBlocksGo : Nat → Sha256State → List Nat → Sha256State
  | 0, st, _ => st
  | fuel + 1, st, data =>
    if data = [] then st
    else shaBlocksGo fuel (shaBlock st (data.take 64)) (data.drop 64)

def sha256 (msg : List Nat) : List Nat :=
  let padded := shaPad msg
  let st := shaBlocksGo (padded.length / 64 + 1) shaInit padded
  wordsToBytes [st.a, st.b, st.c, st.d, st.e, st.f, st.g, st.h]

/-- Byte-wise exclusive or of two byte strings. -/
def xorBytes (a b : List Nat) : List Nat :=
  List.zipWith (fun x y => x ^^^ y) a b

/-- HMAC-SHA-256 (RFC 2104): block size 64, hash output 32 bytes. -/
def hmacSha256 (key msg : List Nat) : List Nat :=
  let k0 := if 64 < key.length then sha256 key else key
  let kp := k0 ++ List.replicate (64 - k0.length) 0
  let ipad := kp.map (fun x => x ^^^ 54)
  let opad := kp.map (fun x => x ^^^ 92)
  sha256 (opad ++ sha256 (ipad ++ msg))

def aesSbox : List Nat :=
  [99, 124, 119, 123, 242, 107, 111, 197, 48, 1, 103, 43, 254, 215, 171, 118, 202, 130, 201, 125, 250, 89, 71, 240, 173, 212, 162, 175, 156, 164, 114, 192, 183, 253, 147, 38, 54, 63, 247, 204, 52, 165, 229, 241, 113, 216, 49, 21, 4, 199, 35, 195, 24, 150, 5, 154, 7, 18, 128, 226, 235, 39, 178, 117, 9, 131, 44, 26, 27, 110, 90, 160, 82, 59, 214, 179, 41, 227, 47, 132, 83, 209, 0, 237, 32, 252, 177, 91, 106, 203, 190, 57, 74, 76, 88, 207, 208, 239, 170, 251, 67, 77, 51, 133, 69, 249, 2, 127, 80, 60, 159, 168, 81, 163, 64, 143, 146, 157, 56, 245, 188, 182, 218, 33, 16, 255, 243, 210, 205, 12, 19, 236, 95, 151, 68, 23, 196, 167, 126, 61, 100, 93, 25, 115, 96, 129, 79, 220, 34, 42, 144, 136, 70, 238, 184, 20, 222, 94, 11, 219, 224, 50, 58, 10, 73, 6, 36, 92, 194, 211, 172, 98, 145, 149, 228, 121, 231, 200, 55, 109, 141, 213, 78, 169, 108, 86, 244, 234, 101, 122, 174, 8, 186, 120, 37, 46, 28, 166, 180, 198, 232, 221, 116, 31, 75, 189, 139, 138, 112, 62, 181, 102, 72, 3, 246, 14, 97, 53, 87, 185, 134, 193, 29, 158, 225, 248, 152, 17, 105, 217, 142, 148, 155, 30, 135, 233, 206, 85, 40, 223, 140, 161, 137, 13, 191, 230, 66, 104, 65, 153, 45, 15, 176, 84, 187, 22]

def subByte (b : Nat) : Nat :=
  aesSbox.getD b 0

/-- Multiplication by x in GF(2^8) with the AES polynomial. -/
def gmul2 (b : Nat) : Nat :=
  if b < 128 then 2 * b else 2 * b % 256 ^^^ 27

def gmul3 (b : Nat) : Nat :=
  gmul2 b ^^^ b

/-- ShiftRows as the standard flat permutation of the 16 state bytes in
column-major order. -/
def shiftRows (l : List Nat) : List Nat :=
  ([0, 5, 10, 15, 4, 9, 14, 3, 8, 13, 2, 7, 12, 1, 6, 11].map
    (fun i => l.getD i 0))

def mixCol (a b c d : Nat) : List Nat :=
  [gmul2 a ^^^ gmul3 b ^^^ c ^^^ d, a ^^^ gmul2 b ^^^ gmul3 c ^^^ d,
    a ^^^ b ^^^ gmul2 c ^^^ gmul3 d, gmul3 a ^^^ b ^^^ c ^^^ gmul2 d]

def mixColumns : List Nat → List Nat
  | a :: b :: c :: d :: r => mixCol a b c d ++ mixColumns r
  | l => l

def aesRcon : List Nat :=
  [1, 2, 4, 8, 16, 32, 64, 128, 27, 54]

def rotWord (w : List Nat) : List Nat :=
  w.drop 1 ++ w.take 1

/-- AES-128 key expansion; the accumulator holds the words produced so far,
latest first, and i is the index of the next word. -/
def aesExpand : Nat → Nat → List (List Nat) → List (List Nat)
  | 0, _, acc => acc
  | n + 1, i, acc =>
    let wprev := acc.getD 0 []
    let wback := acc.getD 3 []
    let t := if i % 4 = 0 then
        xorBytes ((rotWord wprev).map subByte) [aesRcon.getD (i / 4 - 1) 0, 0, 0, 0]
      else wprev
    aesExpand n (i + 1) (xorBytes wback t :: acc)

def aesRoundKeys (key : List Nat) : List (List Nat) :=
  let w0 := key.take 4
  let w1 := (key.drop 4).take 4
  let w2 := (key.drop 8).take 4
  let w3 := (key.drop 12).take 4
  let ws := (aesExpand 40 4 [w3, w2, w1, w0]).reverse
  (List.range 11).map (fun r => ((ws.drop (4 * r)).take 4).flatten)

def aesEncryptBlock (key block : List Nat) : List Nat :=
  let rks := aesRoundKeys key
  let st0 := xorBytes block (rks.getD 0 [])
  let stMain := ((rks.drop 1).take 9).foldl
    (fun st rk => xorBytes (mixColumns (shiftRows (st.map subByte))) rk) st0
  xorBytes (shiftRows (stMain.map subByte)) (rks.getD 10 [])

/-- Doubling step of RFC 4493 subkey generation. -/
def cmacDbl (l : List Nat) : List Nat :=
  let s := shiftLeft1 l
  if 128 ≤ l.getD 0 0 then s.take 15 ++ [s.getD 15 0 ^^^ 135] else s

/-- Padding of the final partial CMAC block. -/
def cmacPad (l : List Nat) : List Nat :=
  l ++ [128] ++ List.replicate (15 - l.length) 0

def cmacGo : Nat → List Nat → List Nat → List Nat → List Nat → List Nat →
    List Nat
  | 0, _, _, _, x, _ => x
  | fuel + 1, key, k1, k2, x, rest =>
    if rest.length = 16 then
      aesEncryptBlock key (xorBytes x (xorBytes rest k1))
    else if rest.length < 16 then
      aesEncryptBlock key (xorBytes x (xorBytes (cmacPad rest) k2))
    else
      cmacGo fuel key k1 k2
        (aesEncryptBlock key (xorBytes x (rest.take 16))) (rest.drop 16)

/-- AES-CMAC (RFC 4493), 16-byte tag. -/
def cmacAes (key msg : List Nat) : List Nat :=
  let l0 := aesEncryptBlock key (List.replicate 16 0)
  let k1 := cmacDbl l0
  let k2 := cmacDbl k1
  cmacGo (msg.length / 16 + 1) key k1 k2 (List.replicate 16 0) msg

/-! ## MILENAGE (TS 35.205/35.206, with OPc)

Embedding of the external github.com/wmnsk/milenage library as used by the
nas package: F2345 computes RES, CK, IK, AK and F1 computes MAC-A. -/

/-- Cyclic left rotation of a 16-byte block by whole bytes. -/
def milRot (l : List Nat) (n : Nat) : List Nat :=
  l.drop n ++ l.take n

/-- MILENAGE constant c_i: 15 zero bytes and the value v. -/
def milC (v : Nat) : List Nat :=
  List.replicate 15 0 ++ [v]

def milTemp (k opc rand : List Nat) : List Nat :=
  aesEncryptBlock k (xorBytes rand opc)

/-- f2/f3/f4/f5: returns (RES, CK, IK, AK). -/
def milenageF2345 (k opc rand : List Nat) :
    List Nat × List Nat × List Nat × List Nat :=
  let temp := milTemp k opc rand
  let out2 := xorBytes (aesEncryptBlock k
    (xorBytes (milRot (xorBytes temp opc) 0) (milC 1))) opc
  let out3 := xorBytes (aesEncryptBlock k
    (xorBytes (milRot (xorBytes temp opc) 4) (milC 2))) opc
  let out4 := xorBytes (aesEncryptBlock k
    (xorBytes (milRot (xorBytes temp opc) 8) (milC 4))) opc
  (out2.drop 8, out3, out4, out2.take 6)

/-- f1: MAC-A from SQN and AMF. -/
def milenageF1 (k opc rand sqn amf : List Nat) : List Nat :=
  let temp := milTemp k opc rand
  let in1 := sqn ++ amf ++ sqn ++ amf
  (xorBytes (aesEncryptBlock k (xorBytes temp
    (xorBytes (milRot (xorBytes in1 opc) 8) (milC 0)))) opc).take 8

/-! ## Package nas: data model

Embedding of encoding/nas/nas.go (the revision carrying the single NasCount
counter, the receive flags and DecodeError).  The debug printing fields
(dbgLevel, indent) have no protocol effect and are omitted; byte slices are
List Nat; the hex-string credential fields keep their Go string type. -/

/-- nas.SNSSAI. -/
structure SNSSAI where
  SST : Nat
  SD : String
  mappedsst : Nat
  mappedsd : String
deriving Repr, DecidableEq

/-- nas.TAI. -/
structure TAI where
  mcc : Nat
  mnc : Nat
  tac : List Nat
deriving Repr, DecidableEq

/-- nas.AuthParam. -/
structure AuthParam where
  K : String
  OPc : String
  rand : List Nat
  autn : List Nat
  seqxorak : List Nat
  amf : List Nat
  mac : List Nat
  abba : List Nat
  RESstar : List Nat
  Kausf : List Nat
  Kseaf : List Nat
  Kamf : List Nat
  Kenc : List Nat
  Kint : List Nat
deriving Repr, DecidableEq

/-- Receive flags inside nas.UE. -/
structure UERecvFlags where
  imeisv : Bool
  rinmr : Bool
deriving Repr, DecidableEq

/-- The Recv sub-record of nas.UE. -/
structure UERecv where
  flag : UERecvFlags
  state : Nat
  fiveGGUTI : List Nat
  tai : List TAI
  allowedNSSAI : List SNSSAI
  t3502 : Nat
  t3512 : Nat
  PDUAddress : List Nat
deriving Repr, DecidableEq

/-- The sm sub-record of nas.UE. -/
structure UESm where
  pduSessionId : Nat
  procedureTransactionId : Nat
deriving Repr, DecidableEq

/-- The wa (workaround) sub-record of nas.UE. -/
structure UEWa where
  securityHeaderParsed : Bool
  forceRINMR : Bool
deriving Repr, DecidableEq

/-- The only decode error value the nas sources assign. -/
inductive NasErr where
  | integrityCheckFailed
deriving Repr, DecidableEq

/-- nas.UE. -/
structure UE where
  MSIN : String
  MCC : Nat
  MNC : Nat
  IMEISV : String
  RoutingIndicator : Nat
  ProtectionScheme : String
  AuthParam : AuthParam
  SNSSAI : SNSSAI
  DNN : String
  state5GMM : Nat
  state5GSM : Nat
  sm : UESm
  Recv : UERecv
  NasCount : Nat
  wa : UEWa
  DecodeError : Option NasErr
deriving Repr, DecidableEq

/-- 5GMM sublayer states. -/
def state5GMMDeregistared : Nat := 0

def state5GMMRegisteredInitiated : Nat := 1

def state5GMMRegistered : Nat := 2

def state5GMMServiceRequestInitiated : Nat := 3

def state5GMMDeregistaredInitiated : Nat := 4

/-- Receive-flag states. -/
def rcvdNull : Nat := 0

def rcvdAuthenticationRequest : Nat := 1

def rcvdSecurityModeCommand : Nat := 2

def rcvdRegistrationAccept : Nat := 3

/-! ## Package nas: byte-reading helpers and string formatting -/

/-- nas.readPduByte; reading from an empty slice panics in Go. -/
def readPduByte : List Nat → Option (Nat × List Nat)
  | [] => none
  | x :: r => some (x, r)

/-- nas.readPduUint16, big endian. -/
def readPduUint16 : List Nat → Option (Nat × List Nat)
  | a :: b :: r => some (a * 256 + b, r)
  | _ => none

/-- nas.readPduByteSlice. -/
def readPduByteSlice (n : Nat) (l : List Nat) : Option (List Nat × List Nat) :=
  if n ≤ l.length then some (l.take n, l.drop n) else none

/-- Big-endian two-byte value of a Go uint16 cast (binary.PutUint16). -/
def u16bytes (n : Nat) : List Nat :=
  [n % 65536 / 256, n % 256]

/-- Value of a hexadecimal digit character; invalid characters decode to 0
with the error ignored, as the sources ignore strconv/hex errors. -/
def hexVal (c : Char) : Nat :=
  if 48 ≤ c.toNat ∧ c.toNat ≤ 57 then c.toNat - 48
  else if 97 ≤ c.toNat ∧ c.toNat ≤ 102 then c.toNat - 87
  else if 65 ≤ c.toNat ∧ c.toNat ≤ 70 then c.toNat - 55
  else 0

/-- nas.Str2BCD: pairs of hex characters packed low-nibble-first. -/
def str2BCD : List Char → List Nat
  | [] => []
  | [c] => [hexVal c]
  | c1 :: c2 :: r => (hexVal c1 + 16 * hexVal c2) :: str2BCD r

/-- encoding/hex.DecodeString on the prefix of valid pairs (the sources
ignore the error return). -/
def hexDecode : List Char → List Nat
  | c1 :: c2 :: r => (16 * hexVal c1 + hexVal c2) :: hexDecode r
  | _ => []

def hexDigitChar (n : Nat) : Char :=
  if n < 10 then Char.ofNat (48 + n) else Char.ofNat (87 + n)

/-- encoding/hex.EncodeToString. -/
def hexEncode (l : List Nat) : String :=
  String.mk ((l.map (fun b => [hexDigitChar (b / 16), hexDigitChar (b % 16)])).flatten)

/-- Decimal digit characters of a natural number (fmt %d). -/
def decChars (n : Nat) : List Char :=
  Nat.toDigits 10 n

/-- fmt %03d: zero-padded to width three. -/
def pad3 (n : Nat) : List Char :=
  let d := decChars n
  List.replicate (3 - d.length) (Char.ofNat 48) ++ d

/-- fmt %02d: zero-padded to width two. -/
def pad2 (n : Nat) : List Char :=
  let d := decChars n
  List.replicate (2 - d.length) (Char.ofNat 48) ++ d

/-- The bytes of a character list (ASCII). -/
def charBytes (l : List Char) : List Nat :=
  l.map Char.toNat

/-! ## Package nas: key derivation (TS 33.501) and NAS MAC -/

/-- Serving network name, fmt "5G:mnc%03d.mcc%03d.3gppnetwork.org". -/
def snn (ue : UE) : List Nat :=
  charBytes ("5G:mnc".toList) ++ charBytes (pad3 ue.MNC) ++
    charBytes (".mcc".toList) ++ charBytes (pad3 ue.MCC) ++
    charBytes (".3gppnetwork.org".toList)

/-- nas.ComputeKausf. -/
def ComputeKausf (ue : UE) (ck ik : List Nat) : UE :=
  let p0 := snn ue
  let p1 := ue.AuthParam.seqxorak
  let s := [106] ++ p0 ++ u16bytes p0.length ++ p1 ++ u16bytes p1.length
  {ue with AuthParam.Kausf := hmacSha256 (ck ++ ik) s}

/-- nas.ComputeRESstar: FC 0x6B over serving network name, RAND, RES, keyed
with CK concatenated with IK, truncated to the last 16 bytes. -/
def ComputeRESstar (ue : UE) (rand res ck ik : List Nat) : UE :=
  let p0 := snn ue
  let s := [107] ++ p0 ++ u16bytes p0.length ++ rand ++ u16bytes rand.length
    ++ res ++ u16bytes res.length
  let resstar := hmacSha256 (ck ++ ik) s
  {ue with AuthParam.RESstar := resstar.drop (resstar.length - 16)}

/-- nas.ComputeKseaf. -/
def ComputeKseaf (ue : UE) : UE :=
  let p0 := snn ue
  let s := [108] ++ p0 ++ u16bytes p0.length
  {ue with AuthParam.Kseaf := hmacSha256 ue.AuthParam.Kausf s}

/-- nas.ComputeKamf, keyed with Kseaf over the SUPI string and ABBA. -/
def ComputeKamf (ue : UE) : UE :=
  let supi := charBytes (decChars ue.MCC) ++ charBytes (pad2 ue.MNC) ++
    charBytes ue.MSIN.toList
  let p1 := ue.AuthParam.abba
  let s := [109] ++ supi ++ u16bytes supi.length ++ p1 ++ u16bytes p1.length
  {ue with AuthParam.Kamf := hmacSha256 ue.AuthParam.Kseaf s}

/-- nas.ComputeAlgKey: Knas_enc and Knas_int, truncated to 16 bytes. -/
def ComputeAlgKey (ue : UE) : UE :=
  let kenc := hmacSha256 ue.AuthParam.Kamf [105, 1, 0, 1, 0, 0, 1]
  let kint := hmacSha256 ue.AuthParam.Kamf [105, 2, 0, 1, 2, 0, 1]
  {ue with AuthParam := {ue.AuthParam with
    Kenc := kenc.drop (kenc.length - 16),
    Kint := kint.drop (kint.length - 16)}}

/-- nas.ComputeMAC: AES-CMAC over count(4) ‖ bearer/direction ‖ zero
padding ‖ pdu, truncated to 4 bytes; the count is the uint32 widening of
the first pdu byte (the sequence number).  Reading the count from an empty
buffer, or running CMAC with a key that is not 16 bytes (aes.NewCipher
fails and the nil block is used), panics in Go. -/
def ComputeMAC (ue : UE) (dir : Nat) (pdu : List Nat) : Option (List Nat) :=
  match pdu with
  | [] => none
  | c :: _ =>
    if ue.AuthParam.Kint.length = 16 then
      some ((cmacAes ue.AuthParam.Kint
        ([0, 0, 0, c, 8 + 4 * dir, 0, 0, 0] ++ pdu)).take 4)
    else none

/-! ## Package nas: information element decoders -/

/-- nas.dec5GSRegistrationResult: length-prefixed value whose first octet
is examined. -/
def dec5GSRegistrationResult (pdu : List Nat) : Option (List Nat) := do
  let (len1, p1) ← readPduByte pdu
  let (val, p2) ← readPduByteSlice len1 p1
  let _ ← val.head?
  some p2

/-- nas.decIMEISVRequest. -/
def decIMEISVRequest (ue : UE) (pdu : List Nat) : Option (UE × List Nat) := do
  let (val, p1) ← readPduByte pdu
  let u := if val &&& 1 ≠ 0 then {ue with Recv.flag.imeisv := true} else ue
  some (u, p1)

/-- nas.decPDUSessionID2. -/
def decPDUSessionID2 (pdu : List Nat) : Option (List Nat) := do
  let (_, p1) ← readPduByte pdu
  some p1

/-- nas.decSNSSAI (without IEI). -/
def decSNSSAI (pdu : List Nat) : Option (SNSSAI × List Nat) := do
  let (len1, p1) ← readPduByte pdu
  let (sst, p2) ← readPduByte p1
  let (sd, p3) ←
    if len1 = 4 ∨ len1 = 5 ∨ len1 = 8 then do
      let (v, p) ← readPduByteSlice 3 p2
      some (hexEncode v, p)
    else some ("", p2)
  let (msst, p4) ←
    if len1 = 2 ∨ len1 = 5 ∨ len1 = 8 then do
      let (v, p) ← readPduByte p3
      some (v, p)
    else some (0, p3)
  let (msd, p5) ←
    if len1 = 8 then do
      let (v, p) ← readPduByteSlice 3 p4
      some (hexEncode v, p)
    else some ("", p4)
  some (⟨sst, sd, msst, msd⟩, p5)

/-- Loop body of nas.decNSSAI; remaining is a Go int that may go
negative, and every iteration consumes at least two bytes, which bounds
the iteration count by the fuel the caller passes. -/
def decNSSAIloop : Nat → Int → UE → List Nat → Option (UE × List Nat)
  | 0, remaining, ue, pdu => if remaining ≤ 0 then some (ue, pdu) else none
  | fuel + 1, remaining, ue, pdu =>
    if remaining ≤ 0 then some (ue, pdu)
    else do
      let lenBefore := pdu.length
      let (sn, p1) ← decSNSSAI pdu
      let u := {ue with Recv.allowedNSSAI := ue.Recv.allowedNSSAI ++ [sn]}
      decNSSAIloop fuel (remaining - (lenBefore - p1.length : Int)) u p1

/-- nas.decNSSAI. -/
def decNSSAI (ue : UE) (pdu : List Nat) : Option (UE × List Nat) := do
  let (len1, p1) ← readPduByte pdu
  decNSSAIloop (p1.length + 1) (Int.ofNat len1) ue p1

/-- nas.decGPRSTimer2. -/
def decGPRSTimer2 (ue : UE) (pdu : List Nat) : Option (UE × List Nat) :=
  match pdu with
  | _ :: b :: r =>
    let mult :=
      if b / 32 = 1 then 60
      else if b / 32 = 2 then 360
      else if b / 32 = 7 then 0
      else 2
    some ({ue with Recv.t3502 := b % 32 * mult}, r)
  | _ => none

/-- nas.decGPRSTimer3. -/
def decGPRSTimer3 (ue : UE) (pdu : List Nat) : Option (UE × List Nat) :=
  match pdu with
  | _ :: b :: r =>
    let mult :=
      if b / 32 = 1 then 3600
      else if b / 32 = 2 then 36000
      else if b / 32 = 3 then 2
      else if b / 32 = 4 then 30
      else if b / 32 = 5 then 60
      else if b / 32 = 6 then 828000
      else if b / 32 = 7 then 0
      else 600
    some ({ue with Recv.t3512 := b % 32 * mult}, r)
  | _ => none

/-- nas.decAuthParamAUTN: the AUTN value is split at fixed offsets, which
panics when it is shorter than 16 bytes. -/
def decAuthParamAUTN (ue : UE) (pdu : List Nat) : Option (UE × List Nat) := do
  let (autnlen, p1) ← readPduByte pdu
  let (autn, p2) ← readPduByteSlice autnlen p1
  if 16 ≤ autn.length then
    some ({ue with
      AuthParam.autn := autn,
      AuthParam.seqxorak := autn.take 6,
      AuthParam.amf := (autn.drop 6).take 2,
      AuthParam.mac := (autn.drop 8).take 8}, p2)
  else none

/-- nas.decAuthParamRAND: fixed 16 bytes. -/
def decAuthParamRAND (ue : UE) (pdu : List Nat) : Option (UE × List Nat) := do
  let (rand, p1) ← readPduByteSlice 16 pdu
  some ({ue with AuthParam.rand := rand}, p1)

/-- nas.decPDUAddress: only the IPv4 case consumes the address bytes. -/
def decPDUAddress (ue : UE) (pdu : List Nat) : Option (UE × List Nat) := do
  let (_len, p1) ← readPduByte pdu
  let (ty, p2) ← readPduByte p1
  if ty &&& 7 = 1 then do
    let (addr, p3) ← readPduByteSlice 4 p2
    some ({ue with Recv.PDUAddress := addr}, p3)
  else some (ue, p2)

/-- nas.decAdditional5GSecInfo. -/
def decAdditional5GSecInfo (ue : UE) (pdu : List Nat) : Option (UE × List Nat) := do
  let (len1, p1) ← readPduByte pdu
  if len1 ≠ 1 then do
    let (_, p2) ← readPduByteSlice len1 p1
    some (ue, p2)
  else do
    let val ← p1.head?
    let u1 := {ue with Recv.flag.rinmr := val &&& 2 ≠ 0}
    let (_, p2) ← readPduByteSlice len1 p1
    some (u1, p2)

/-- nas.decPLMN: telephony BCD to MCC and MNC. -/
def decPLMN (pdu : List Nat) : Option (Nat × Nat × List Nat) :=
  match pdu with
  | o1 :: o2 :: o3 :: r =>
    let mcc := o1 % 16 * 100 + o1 / 16 * 10 + o2 % 16
    let mnc := (if o2 / 16 ≠ 15 then o2 / 16 * 100 else 0) +
      o3 % 16 * 10 + o3 / 16
    some (mcc, mnc, r)
  | _ => none

/-- Loop of nas.decTAIListType00. -/
def decTACloop : Nat → Nat → Nat → UE → List Nat → Option (UE × List Nat)
  | 0, _, _, ue, pdu => some (ue, pdu)
  | num + 1, mcc, mnc, ue, pdu => do
    let (tac, p1) ← readPduByteSlice 3 pdu
    decTACloop num mcc mnc
      {ue with Recv.tai := ue.Recv.tai ++ [⟨mcc, mnc, tac⟩]} p1

/-- nas.decTAIListType00. -/
def decTAIListType00 (ue : UE) (pdu : List Nat) (num : Nat) :
    Option (UE × List Nat) := do
  let (mcc, mnc, p1) ← decPLMN pdu
  decTACloop num mcc mnc ue p1

/-- nas.decTAIList. -/
def decTAIList (ue : UE) (pdu : List Nat) : Option (UE × List Nat) := do
  let (len1, p1) ← readPduByte pdu
  let (tmp, p2) ← readPduByte p1
  let elementNum := tmp % 32 + 1
  let typeOfList := tmp / 32
  if typeOfList = 0 then decTAIListType00 ue p2 elementNum
  else do
    let (_, p3) ← readPduByteSlice len1 p2
    some (ue, p3)

/-- nas.dec5GSMCause. -/
def dec5GSMCause (pdu : List Nat) : Option (List Nat) := do
  let (_, p1) ← readPduByte pdu
  some p1

/-- nas.dec5GSMobileID: only the 5G-GUTI variant stores its value. -/
def dec5GSMobileID (ue : UE) (pdu : List Nat) : Option (UE × List Nat) := do
  let (len1, p1) ← readPduUint16 pdu
  let (tmp, p2) ← readPduByte p1
  let id := tmp &&& 7
  let len2 := len1 - 1
  let (val, p3) ← readPduByteSlice len2 p2
  let u := if id = 2 then {ue with Recv.fiveGGUTI := val} else ue
  some (u, p3)

/-- Membership tests of the per-message IE string maps; these gate the
break of nas.decInformationElement. -/
def ieStrRegAccKeys (i : Nat) : Bool :=
  i = 21 || i = 22 || i = 84 || i = 94 || i = 119

def ieStrAuthReqKeys (i : Nat) : Bool :=
  i = 32 || i = 33

def ieStrSecModeCmdKeys (i : Nat) : Bool :=
  i = 14 || i = 54

def ieStrDLNasTransportKeys (i : Nat) : Bool :=
  i = 18

def ieStrPSEAcceptKeys (i : Nat) : Bool :=
  i = 41 || i = 89

/-- The switch of nas.decInformationElement: decode one information
element, dispatching on its identifier; an identifier that is in the
message map but has no switch branch clears the buffer. -/
def decIEdispatch (iei : Nat) (ue : UE) (pdu1 : List Nat) :
    Option (UE × List Nat) :=
  if iei = 14 then decIMEISVRequest ue pdu1
  else if iei = 18 then do
    let p ← decPDUSessionID2 pdu1
    some (ue, p)
  else if iei = 21 then decNSSAI ue pdu1
  else if iei = 22 then decGPRSTimer2 ue pdu1
  else if iei = 32 then decAuthParamAUTN ue pdu1
  else if iei = 33 then decAuthParamRAND ue pdu1
  else if iei = 41 then decPDUAddress ue pdu1
  else if iei = 54 then decAdditional5GSecInfo ue pdu1
  else if iei = 84 then decTAIList ue pdu1
  else if iei = 89 then do
    let p ← dec5GSMCause pdu1
    some (ue, p)
  else if iei = 94 then decGPRSTimer3 ue pdu1
  else if iei = 119 then dec5GSMobileID ue pdu1
  else some (ue, [])

/-- nas.decInformationElement: walks the remaining IEs, stopping at the
first identifier missing from the message map.  Type-1 IEs (high bit set)
keep their masked octet in the buffer; others consume the identifier
octet. -/
def decIEloop : Nat → (Nat → Bool) → UE → List Nat → Option (UE × List Nat)
  | 0, _, _, _ => none
  | fuel + 1, known, ue, pdu =>
    match pdu with
    | [] => some (ue, [])
    | b0 :: rest =>
      let type1 := 128 ≤ b0
      let iei := if type1 then b0 / 16 else b0
      if ¬ known iei then some (ue, pdu)
      else do
        let (u, p) ← decIEdispatch iei ue
          (if type1 then (b0 &&& 15) :: rest else rest)
        decIEloop fuel known u p

/-- nas.decInformationElement with the fuel needed by its progress. -/
def decInformationElement (known : Nat → Bool) (ue : UE) (pdu : List Nat) :
    Option (UE × List Nat) :=
  decIEloop (pdu.length + 1) known ue pdu

/-! ## Package nas: message decoders -/

/-- nas.decRegistrationAccept: the receive flag is set unconditionally at
the end; the 5GMM state is not touched. -/
def decRegistrationAccept (ue : UE) (pdu : List Nat) : Option (UE × List Nat) := do
  let p1 ← dec5GSRegistrationResult pdu
  let (u1, p2) ← decInformationElement ieStrRegAccKeys ue p1
  some ({u1 with Recv.state := rcvdRegistrationAccept}, p2)

/-- nas.decUESecurityCapability. -/
def decUESecurityCapability (pdu : List Nat) : Option (List Nat) := do
  let (len1, p1) ← readPduByte pdu
  let (_, p2) ← readPduByteSlice len1 p1
  some p2

/-- nas.decSecurityModeCommand. -/
def decSecurityModeCommand (ue : UE) (pdu : List Nat) : Option (UE × List Nat) := do
  let (_alg, p1) ← readPduByte pdu
  let (_ksi, p2) ← readPduByte p1
  let p3 ← decUESecurityCapability p2
  let (u1, p4) ← decInformationElement ieStrSecModeCmdKeys ue p3
  some ({u1 with Recv.state := rcvdSecurityModeCommand}, p4)

/-- nas.decABBA. -/
def decABBA (ue : UE) (pdu : List Nat) : Option (UE × List Nat) := do
  let (len1, p1) ← readPduByte pdu
  let (abba, p2) ← readPduByteSlice len1 p1
  some ({ue with AuthParam.abba := abba}, p2)

/-- nas.decAuthenticationRequest: parse ngKSI, ABBA and the RAND/AUTN IEs,
run MILENAGE with the received SQN xor AK, compare MAC-A, and on a match
derive the whole key chain and RES* and set the receive flag.  On a MAC
mismatch the function returns with no state change (no failure message is
produced).  The uint16 read of the AMF field panics when no AUTN was
present. -/
def decAuthenticationRequest (ue : UE) (pdu : List Nat) : Option (UE × List Nat) := do
  let (_ksi, p1) ← readPduByte pdu
  let (u1, p2) ← decABBA ue p1
  let (u2, p3) ← decInformationElement ieStrAuthReqKeys u1 p2
  let k := hexDecode u2.AuthParam.K.toList
  let opc := hexDecode u2.AuthParam.OPc.toList
  if u2.AuthParam.amf.length < 2 then none
  else
    let amf := u2.AuthParam.amf.take 2
    let (res, ck, ik, ak) := milenageF2345 k opc u2.AuthParam.rand
    let sqn := xorBytes u2.AuthParam.seqxorak ak ++
      List.replicate (6 - u2.AuthParam.seqxorak.length) 0
    let maca := milenageF1 k opc u2.AuthParam.rand sqn amf
    if u2.AuthParam.mac ≠ maca then some (u2, p3)
    else
      let u3 := ComputeKausf u2 ck ik
      let u4 := ComputeKseaf u3
      let u5 := ComputeKamf u4
      let u6 := ComputeAlgKey u5
      let u7 := ComputeRESstar u6 u2.AuthParam.rand res ck ik
      some ({u7 with Recv.state := rcvdAuthenticationRequest}, p3)

/-- nas.decQoSRule inner packet-filter reader. -/
def decPacketFilterContents : Nat → List Nat → Option (List Nat)
  | 0, pdu => some pdu
  | n + 1, pdu => do
    let (_, p1) ← readPduByte pdu
    decPacketFilterContents n p1

/-- nas.decPacketFilter. -/
def decPacketFilter (pdu : List Nat) : Option (List Nat) := do
  let (_, p1) ← readPduByte pdu
  let (len1, p2) ← readPduByte p1
  decPacketFilterContents len1 p2

def decPacketFilterLoop : Nat → List Nat → Option (List Nat)
  | 0, pdu => some pdu
  | n + 1, pdu => do
    let p1 ← decPacketFilter pdu
    decPacketFilterLoop n p1

/-- nas.decQoSRule; the returned count is the byte length charged against
the rules length, 3 plus the rule length. -/
def decQoSRule (pdu : List Nat) : Option (Nat × List Nat) := do
  let (_id, p1) ← readPduByte pdu
  let (ruleLen, p2) ← readPduUint16 p1
  let (tmp, p3) ← readPduByte p2
  let filterNum := tmp &&& 15
  let p4 ← decPacketFilterLoop filterNum p3
  let (_prec, p5) ← readPduByte p4
  let (_qfi, p6) ← readPduByte p5
  some (3 + ruleLen, p6)

def decQoSRulesLoop : Nat → Int → List Nat → Option (List Nat)
  | 0, remain, pdu => if remain ≤ 0 then some pdu else none
  | fuel + 1, remain, pdu =>
    if remain ≤ 0 then some pdu
    else do
      let (used, p1) ← decQoSRule pdu
      decQoSRulesLoop fuel (remain - (used : Int)) p1

/-- nas.decQoSRules. -/
def decQoSRules (pdu : List Nat) : Option (List Nat) := do
  let (len1, p1) ← readPduUint16 pdu
  decQoSRulesLoop (p1.length + 1) (Int.ofNat len1) p1

/-- nas.decSessionAMBR. -/
def decSessionAMBR (pdu : List Nat) : Option (List Nat) := do
  let (_len, p1) ← readPduByte pdu
  let (_unitDL, p2) ← readPduByte p1
  let (_dl, p3) ← readPduUint16 p2
  let (_unitUL, p4) ← readPduByte p3
  let (_ul, p5) ← readPduUint16 p4
  some p5

/-- nas.decPDUSessionEstablishmentAccept: the PDU session type and the SSC
mode share one octet, which decPDUSessionType and decSSCMode examine via
in-place nibble shifts before the single explicit consume. -/
def decPDUSessionEstablishmentAccept (ue : UE) (pdu : List Nat) :
    Option (UE × List Nat) := do
  let (_tyssc, p1) ← readPduByte pdu
  let p4 ← decQoSRules p1
  let p5 ← decSessionAMBR p4
  decInformationElement ieStrPSEAcceptKeys ue p5

/-! ## Package nas: message encoders -/

/-- nas.enc5GSMMMessageHeader. -/
def enc5GSMMMessageHeader (headType msgType : Nat) : List Nat :=
  [126, headType, msgType]

/-- nas.enc5GSecurityProtectedMessageHeader: prepend the sequence number
(the low byte of NasCount) to the body, compute the uplink MAC over it,
and increment the 32-bit counter after emitting.  Returns the header
(EPD, SHT, MAC), the updated UE and the body with the sequence number. -/
def enc5GSecurityProtectedMessageHeader (ue : UE) (headType : Nat)
    (pdu : List Nat) : Option (List Nat × UE × List Nat) := do
  let seq := ue.NasCount % 256
  let newPdu := seq :: pdu
  let mac ← ComputeMAC ue 0 newPdu
  some ([126, headType] ++ mac,
    {ue with NasCount := (ue.NasCount + 1) % 4294967296}, newPdu)

/-- nas.encAuthParamRes followed by its binary.Write: IEI 0x2D, length 16
and RES* padded into a 16-byte array (an overlong RES* panics on the
array store). -/
def encAuthParamRes (ue : UE) : Option (List Nat) :=
  if ue.AuthParam.RESstar.length ≤ 16 then
    some ([45, 16] ++ ue.AuthParam.RESstar ++
      List.replicate (16 - ue.AuthParam.RESstar.length) 0)
  else none

/-- nas.MakeAuthenticationResponse. -/
def MakeAuthenticationResponse (ue : UE) : Option (UE × List Nat) := do
  let res ← encAuthParamRes ue
  some (ue, enc5GSMMMessageHeader 0 87 ++ res)

/-- nas.encPLMN. -/
def encPLMN (mcc mnc : Nat) : Option (List Nat) :=
  let str := if mnc < 100 then
      decChars mcc ++ [Char.ofNat 102] ++ pad2 mnc
    else decChars mcc ++ decChars mnc
  let bcd := str2BCD str
  if bcd.length ≤ 3 then some (bcd ++ List.replicate (3 - bcd.length) 0)
  else none

/-- nas.encRoutingIndicator. -/
def encRoutingIndicator (ind : Nat) : Option (List Nat) :=
  let bcd := str2BCD (decChars (ind % 65536))
  if bcd.length ≤ 2 then some (bcd ++ List.replicate (2 - bcd.length) 0)
  else none

/-- nas.encSchemeOutput. -/
def encSchemeOutput (msin : String) : Option (List Nat) :=
  let bcd := str2BCD msin.toList
  if bcd.length ≤ 5 then some (bcd ++ List.replicate (5 - bcd.length) 0)
  else none

/-- nas.enc5GSMobileIDTypeSUCI: length 13, SUPI format and type, PLMN,
routing indicator, protection scheme (always null), home network key and
scheme output. -/
def enc5GSMobileIDTypeSUCI (ue : UE) : Option (List Nat) := do
  let plmn ← encPLMN ue.MCC ue.MNC
  let ri ← encRoutingIndicator ue.RoutingIndicator
  let so ← encSchemeOutput ue.MSIN
  some ([0, 13, 1] ++ plmn ++ ri ++ [0, 0] ++ so)

/-- nas.enc5GSMobileIDTypeIMEISV. -/
def enc5GSMobileIDTypeIMEISV (ue : UE) : Option (List Nat) :=
  let typeID := if ue.IMEISV.length / 2 = 1 then 13 else 5
  let str := [hexDigitChar typeID] ++ ue.IMEISV.toList ++ [Char.ofNat 102]
  let bcd := str2BCD str
  if bcd.length ≤ 9 then
    some ([0, 9] ++ bcd ++ List.replicate (9 - bcd.length) 0)
  else none

/-- nas.enc5GMMCapability. -/
def enc5GMMCapability : List Nat :=
  [16, 1, 32]

/-- nas.encUESecurityCapability: null ciphering, IA0 and IA2. -/
def encUESecurityCapability : List Nat :=
  [46, 4, 128, 160, 0, 0]

/-- nas.MakeRegistrationRequest: plain header, registration type with
ngKSI, SUCI and the capability IEs, moving the 5GMM state to
REGISTERED-INITIATED. -/
def MakeRegistrationRequest (ue : UE) : Option (UE × List Nat) := do
  let suci ← enc5GSMobileIDTypeSUCI ue
  let pdu := enc5GSMMMessageHeader 0 65 ++ [121] ++ suci ++
    enc5GMMCapability ++ encUESecurityCapability
  some ({ue with state5GMM := state5GMMRegisteredInitiated}, pdu)

/-- nas.encNASMessageContainer (with IEI), wrapping the Registration
Request. -/
def encNASMessageContainer (ue : UE) : Option (UE × List Nat) := do
  let (u1, tmp) ← MakeRegistrationRequest ue
  some (u1, [113] ++ u16bytes tmp.length ++ tmp)

/-- nas.MakeSecurityModeComplete: optional IMEISV, optional NAS message
container with the original Registration Request (forced by the
forceRINMR workaround), then the protected header. -/
def MakeSecurityModeComplete (ue : UE) : Option (UE × List Nat) := do
  let pdu0 := enc5GSMMMessageHeader 0 94
  let (u1, pdu1) ←
    if ue.Recv.flag.imeisv then do
      let im ← enc5GSMobileIDTypeIMEISV ue
      some ({ue with Recv.flag.imeisv := false}, pdu0 ++ [119] ++ im)
    else some (ue, pdu0)
  let (u2, pdu2) ←
    if u1.Recv.flag.rinmr || u1.wa.forceRINMR then do
      let (u, c) ← encNASMessageContainer u1
      some ({u with Recv.flag.rinmr := false}, pdu1 ++ c)
    else some (u1, pdu1)
  let (head, u3, pdu3) ← enc5GSecurityProtectedMessageHeader u2 4 pdu2
  some (u3, head ++ pdu3)

/-- nas.MakeRegistrationComplete: plain Registration Complete wrapped in
the security-protected header. -/
def MakeRegistrationComplete (ue : UE) : Option (UE × List Nat) := do
  let pdu0 := enc5GSMMMessageHeader 0 67
  let (head, u1, pdu1) ← enc5GSecurityProtectedMessageHeader ue 4 pdu0
  some (u1, head ++ pdu1)

/-- nas.MakeNasPdu: dispatch on the receive flag; with no flag set the
returned PDU is empty. -/
def MakeNasPdu (ue : UE) : Option (UE × List Nat) :=
  if ue.Recv.state = rcvdAuthenticationRequest then MakeAuthenticationResponse ue
  else if ue.Recv.state = rcvdSecurityModeCommand then MakeSecurityModeComplete ue
  else if ue.Recv.state = rcvdRegistrationAccept then MakeRegistrationComplete ue
  else some (ue, [])

/-! ## Package nas: the decode entry points

The recursion of Decode (through the security-protected unwrap and through
the payload container of DL NAS Transport) is fuel-indexed; the helpers
take the recursive entry as the rec argument. -/

/-- nas.decDLNasTransport. -/
def decDLNasTransport (rec : UE → List Nat → Option (UE × List Nat × Nat))
    (ue : UE) (pdu : List Nat) : Option (UE × List Nat) := do
  let (_ctype, p1) ← readPduByte pdu
  let (plen, p2) ← readPduUint16 p1
  let (payload, p3) ← readPduByteSlice plen p2
  let (u1, _, _) ← rec ue payload
  decInformationElement ieStrDLNasTransportKeys u1 p3

/-- nas.Decode5GMM: validate and strip the security-protected header when
present (clearing the buffer and recording the decode error on a MAC
mismatch), or decode the plain message and dispatch on its type. -/
def decode5GMM (rec : UE → List Nat → Option (UE × List Nat × Nat))
    (ue : UE) (pdu : List Nat) : Option (UE × List Nat × Nat) := do
  let (secHeader, p1) ← readPduByte pdu
  if secHeader ≠ 0 ∧ ue.wa.securityHeaderParsed = false then do
    let (mac, p2) ← readPduByteSlice 4 p1
    let _seq ← p2.head?
    let macCalc ← ComputeMAC ue 1 p2
    if mac ≠ macCalc then
      some ({ue with DecodeError := some NasErr.integrityCheckFailed}, [], 0)
    else do
      let (_, p3) ← readPduByte p2
      rec {ue with wa.securityHeaderParsed := true} p3
  else do
    let (msgType, p2) ← readPduByte p1
    let (u1, p3) ←
      if msgType = 66 then decRegistrationAccept ue p2
      else if msgType = 86 then decAuthenticationRequest ue p2
      else if msgType = 93 then decSecurityModeCommand ue p2
      else if msgType = 104 then decDLNasTransport rec ue p2
      else some (ue, p2)
    some ({u1 with wa.securityHeaderParsed := false}, p3, msgType)

/-- nas.Decode5GSM. -/
def decode5GSM (ue : UE) (pdu : List Nat) : Option (UE × List Nat × Nat) := do
  let (_psi, p1) ← readPduByte pdu
  let (_pti, p2) ← readPduByte p1
  let (msgType, p3) ← readPduByte p2
  let (u1, p4) ←
    if msgType = 194 then decPDUSessionEstablishmentAccept ue p3
    else some (ue, p3)
  some (u1, p4, msgType)

/-- nas.Decode: reset the decode error, read the EPD and dispatch. -/
def decodeNas : Nat → UE → List Nat → Option (UE × List Nat × Nat)
  | 0, _, _ => none
  | fuel + 1, ue, pdu => do
    let u0 := {ue with DecodeError := none}
    let (epd, p1) ← readPduByte pdu
    if epd = 126 then decode5GMM (decodeNas fuel) u0 p1
    else decode5GSM u0 p1

/-! ## Package ngap (src/encoding/ngap/ngap.go): protocol IE decoders

The camper list of a GNB is a Go slice of pointers mutated in place; it is
modelled as a list of values addressed by index.  The current-camper
argument threaded through the IE loop is a Go pointer that is either nil,
a pointer into the list, or the temporary camper allocated by
decAMFUENGAPID; dereferencing nil panics (none). -/

/-- ngap.Camper: the fields the decoders embedded here touch.  The GNB, UE
and GTP pointers, the RRC state, the session and flow ids and the message
buffers are not used by these decoders and are not modelled. -/
structure Camper where
  AmfId : Nat
  RanId : Nat
  camperType : Nat
deriving Repr, DecidableEq

def CAMPER_TYPE_TEMPORARY : Nat := 0

def CAMPER_TYPE_NORMAL : Nat := 1

/-- ngap.GNB: the camper list. -/
structure GNB where
  Camper : List Camper
deriving Repr, DecidableEq

/-- A Go *Camper that is not nil: a pointer into gnb.Camper, or the
temporary camper built by decAMFUENGAPID which lives outside the list. -/
inductive CamperRef where
  | real (i : Nat)
  | temp (c : Camper)
deriving Repr, DecidableEq

/-- Dereference: the AmfId field behind a camper pointer. -/
def refAmfId (gnb : GNB) : CamperRef → Nat
  | CamperRef.real i => (gnb.Camper.getD i ⟨0, 0, 0⟩).AmfId
  | CamperRef.temp c => c.AmfId

/-- The error values the embedded ngap decoders produce. -/
inductive NgapErr where
  | tooShort
  | unsupportedIdLength
  | camperNotFound (id : Nat)
deriving Repr, DecidableEq

/-- ngap.LookupCamperByRanId: index of the first camper with the RAN id
(the Go function returns the pointer, nil when none matches). -/
def LookupCamperByRanId (gnb : GNB) (id : Nat) : Option Nat :=
  gnb.Camper.findIdx? (fun c => c.RanId = id)

/-- ngap.decAMFUENGAPID: on a declared length other than 2 it returns the
unsupported-length error with a nil camper and the pdu unread; otherwise
it reads two octets and builds a fresh temporary camper holding them as
AmfId. -/
def decAMFUENGAPID (pdu : List Nat) (length : Nat) :
    Option (Option CamperRef × Option NgapErr × List Nat) :=
  if length ≠ 2 then some (none, some NgapErr.unsupportedIdLength, pdu)
  else do
    let (id, p1) ← readPduUint16 pdu
    some (some (CamperRef.temp ⟨id, 0, CAMPER_TYPE_TEMPORARY⟩), none, p1)

/-- ngap.decRANUENGAPID: on a declared length other than 2 it returns the
unsupported-length error with a nil camper and the pdu unread; otherwise
it reads the RAN id, looks the camper up, and copies cTmp.AmfId into it —
dereferencing cTmp, which panics when cTmp is nil. -/
def decRANUENGAPID (gnb : GNB) (cTmp : Option CamperRef) (pdu : List Nat)
    (length : Nat) :
    Option (GNB × Option CamperRef × Option NgapErr × List Nat) :=
  if length ≠ 2 then some (gnb, none, some NgapErr.unsupportedIdLength, pdu)
  else do
    let (id, p1) ← readPduUint16 pdu
    match LookupCamperByRanId gnb id with
    | none => some (gnb, none, some (NgapErr.camperNotFound id), p1)
    | some i => do
      let tmp ← cTmp
      let amf := refAmfId gnb tmp
      let old := gnb.Camper.getD i ⟨0, 0, 0⟩
      some (⟨gnb.Camper.set i {old with AmfId := amf}⟩,
        some (CamperRef.real i), none, p1)

/-- ngap.decProtocolIE: read the IE id, skip the criticality octet, read
the one-octet length and dispatch.  c2 starts as c and is replaced by the
sub-decoder result (nil on their errors) for the AMF-UE-NGAP-ID and
RAN-UE-NGAP-ID IEs; unknown ids dump length octets with no error.  The
branches for ids 38, 71, 74, 134, 136 and 139 call the NAS / PDU-session /
QoS / transport decoders whose state lies outside this ngap fragment; they
are left unmodelled (none), and no theorem below reaches them. -/
def decProtocolIE (gnb : GNB) (c : Option CamperRef) (pdu : List Nat) :
    Option (GNB × Option CamperRef × Option NgapErr × List Nat) :=
  if pdu.length < 2 then some (gnb, c, some NgapErr.tooShort, pdu)
  else do
    let (id, p1) ← readPduUint16 pdu
    let (_crit, p2) ← readPduByte p1
    let (length, p3) ← readPduByte p2
    if id = 10 then do
      let (c2, err, p4) ← decAMFUENGAPID p3 length
      some (gnb, c2, err, p4)
    else if id = 85 then decRANUENGAPID gnb c p3 length
    else if id = 38 ∨ id = 71 ∨ id = 74 ∨ id = 134 ∨ id = 136 ∨ id = 139 then
      none
    else do
      let (_dump, p4) ← readPduByteSlice length p3
      some (gnb, c, none, p4)

/-- The item loop of ngap.decProtocolIEContainer: err is overwritten on
every iteration (so only the last item's error survives) and the loop
keeps decoding after a failed item. -/
def decProtocolIEloop (gnb : GNB) (c : Option CamperRef)
    (err : Option NgapErr) (num : Nat) (pdu : List Nat) :
    Option (GNB × Option CamperRef × Option NgapErr × List Nat) :=
  match num with
  | 0 => some (gnb, c, err, pdu)
  | n + 1 => do
    let (g2, c2, e2, p2) ← decProtocolIE gnb c pdu
    decProtocolIEloop g2 c2 e2 n p2

/-- ngap.decProtocolIEContainer: guard the three-octet minimum (returning
a nil camper), skip the sequence octet, read the two-octet item count and
run the loop.  ngap.Decode enters here with a nil camper. -/
def decProtocolIEContainer (gnb : GNB) (c : Option CamperRef)
    (pdu : List Nat) :
    Option (GNB × Option CamperRef × Option NgapErr × List Nat) :=
  if pdu.length < 3 then some (gnb, none, some NgapErr.tooShort, pdu)
  else do
    let (_seq, p1) ← readPduByte pdu
    let (num, p2) ← readPduUint16 p1
    decProtocolIEloop gnb c none num p2

set_option synthInstance.maxHeartbeats 2000000

/-- Cached decidable equality for the decoder result tuple (instance
search on the nested product is otherwise too large). -/
instance gnbTupleDecEq :
    DecidableEq (GNB × Option CamperRef × Option NgapErr × List Nat) :=
  inferInstance

/-! ## Specification-side definitions and bit semantics

The definitions below are not translations of the source: they either
follow the words of the natural-language specification (for refinement
comparisons) or give the mathematical reading of bit fields used to state
properties. -/

/-- Minimum-octet big-endian representation of a natural number (at least
one octet), as used by the specification wording for the indefinite-length
case of the constrained whole number. -/
def minOctets (n : Nat) : List Nat :=
  if n = 0 then [0] else nnbiBytes ((bitsLen n + 7) / 8) n

/-- Specification reading of enc_constrained_whole_number, written from the
words of the spec for comparison with the source function: with
R = max-min+1 (exact arithmetic), R=1 gives an empty bit-field; R<256 a
bit-field of ceil(log2 R) bits holding v-min; R=256 one octet holding
v-min; R≤65536 two big-endian octets holding v-min; and R>65536 the
minimum-octet non-negative binary integer encoding of v-min preceded by a
length determinant (one octet for lengths below 128).  Octet-aligned
results carry bit length 0, the marker also used by the source. -/
def specConstrainedWholeNumber (v min max : Int) : BitField :=
  let r : Int := max - min + 1
  let e : Nat := (v - min).toNat
  if r = 1 then ⟨[], 0⟩
  else if r < 256 then ⟨[e], Nat.clog 2 r.toNat⟩
  else if r = 256 then ⟨[e], 0⟩
  else if r ≤ 65536 then ⟨[e / 256, e % 256], 0⟩
  else
    let oct := minOctets e
    let det := if oct.length < 128 then [oct.length]
      else [128 + oct.length / 256, oct.length % 256]
    ⟨det ++ oct, 0⟩

/-- The eight bits of a byte, most significant first; a bit is the natural
number 0 or 1. -/
def byteBits (b : Nat) : List Nat :=
  [b / 128 % 2, b / 64 % 2, b / 32 % 2, b / 16 % 2,
    b / 8 % 2, b / 4 % 2, b / 2 % 2, b % 2]

/-- The bit stream of a byte string. -/
def bitsOf (l : List Nat) : List Nat :=
  (l.map byteBits).flatten

/-- Bit i of a byte string, by indexing. -/
def bitAt (l : List Nat) (i : Nat) : Nat :=
  l.getD (i / 8) 0 / 2 ^ (7 - i % 8) % 2

/-- Bit i of a BitField. -/
def bfBit (bf : BitField) (i : Nat) : Nat :=
  bitAt bf.Value i

/-- All members of a byte string are bytes. -/
def bytesWF (l : List Nat) : Prop :=
  ∀ x ∈ l, x < 256

/-- Normalised bit field: the byte count matches the bit length, members
are bytes, and the padding bits after position Len are clear — the shape
every per encoder output has after ShiftLeftMost. -/
def WFbf (bf : BitField) : Prop :=
  bf.Value.length = (bf.Len + 7) / 8 ∧ bytesWF bf.Value ∧
    ∀ i < 8 * bf.Value.length, bf.Len ≤ i → bfBit bf i = 0

/-! ## Test fixtures

Concrete values from the repository: the UE configuration of
docker/scripts/gnbsim.yaml as exercised by the nas package tests, and the
NAS integrity key and RES* that configuration derives from the test-vector
Authentication Request. -/

/-- The test UE: MSIN 0123456789, PLMN 208/93, IMEISV 0000000100000101,
routing indicator 1234, null protection scheme and the test K and OPc. -/
def testUE : UE :=
  ⟨"0123456789", 208, 93, "0000000100000101", 1234, "null",
    ⟨"8baf473f2f8fd09487cccbd7097c6862", "8e27b6af0e692e750f32667a3b14605d",
      [], [], [], [], [], [], [], [], [], [], [], []⟩,
    ⟨1, "010203", 0, ""⟩, "internet", 0, 0, ⟨0, 0⟩,
    ⟨⟨false, false⟩, 0, [], [], [], 0, 0, []⟩, 0, ⟨false, false⟩, none⟩

/-- The NAS integrity key the test configuration derives from the
test-vector Authentication Request (the Kint of the post-authentication
UE). -/
def derivedKint : List Nat :=
  hexDecode "f2e93ce1fd9389e1f40a200c3b3462ad".toList

/-- The RES* the test configuration derives (TestAuthenticationResponse
carries it). -/
def derivedRESstar : List Nat :=
  hexDecode "803adcacc364fc000bdc0f65e324eaa1".toList

/-- The body of the test-vector Registration Accept after its message
type octet. -/
def regAccBody : List Nat :=
  hexDecode ("010177000b0202f839cafe000000000154070002f839000001150a04" ++
    "0101020304011122335e010616012c").toList

/-- Specification reading of a three-decimal-digit zero-padded number (the
wording fixes MCC and MNC to exactly three digits). -/
def specThreeDigits (n : Nat) : List Nat :=
  [48 + n / 100 % 10, 48 + n / 10 % 10, 48 + n % 10]

/-- Specification reading of the serving network name: the ASCII bytes of
5G:mncNNN.mccNNN.3gppnetwork.org with MNC and MCC zero-padded to three
digits. -/
def specSNN (mcc mnc : Nat) : List Nat :=
  charBytes ("5G:mnc".toList) ++ specThreeDigits mnc ++
    charBytes (".mcc".toList) ++ specThreeDigits mcc ++
    charBytes (".3gppnetwork.org".toList)

/-- Specification reading of a parameter's big-endian two-byte length. -/
def specL (p : List Nat) : List Nat :=
  [p.length / 256, p.length % 256]

/-- Specification reading of RES*: the 128 least-significant bits of
HMAC-SHA-256 keyed with CK concatenated with IK over the string
0x6B, SNN, L(SNN), RAND, L(RAND), RES, L(RES). -/
def specRESstar (mcc mnc : Nat) (rand res ck ik : List Nat) : List Nat :=
  let s := specSNN mcc mnc
  (hmacSha256 (ck ++ ik)
    ([107] ++ s ++ specL s ++ rand ++ specL rand ++ res ++ specL res)).drop 16

/-! ## Theorems -/

/-- Byte length of the encoded GTP header: 16 bytes with the extension
chain, and 9 bytes without it, because the encoder always appends the
next-extension-header-type terminator octet 0x00 even when the E flag is
clear. -/
theorem encGTPHeader_length (g : GTP) (n : Nat) :
    (encGTPHeader g n).length = if g.HasExtensionHeader then 16 else 9 := by
  cases h : g.HasExtensionHeader <;>
    simp [encGTPHeader, encExtensionHeader, encULPduSessionInformation,
      u32bytes, h]

/-- C7 (amended): decapsulation after encapsulation on the same tunnel
returns the original payload when the tunnel carries the PDU Session
Container extension header; without the extension header the encoder still
emits the 0x00 next-extension-header-type octet but the decoder strips only
8 header octets, so the payload comes back with a spurious leading 0x00. -/
theorem gtp_decap_encap (g : GTP) (raw : List Nat) :
    Decap g (Encap g raw) =
      some (if g.HasExtensionHeader then raw else 0 :: raw) := by
  have h48 : (48 : Nat) &&& 4 = 0 := by decide
  have h52 : ¬((52 : Nat) &&& 4 = 0) := by decide
  cases h : g.HasExtensionHeader <;>
    simp [Decap, Encap, decGTPHeader, encGTPHeader, encExtensionHeader,
      encULPduSessionInformation, u32bytes, h, h48, h52, List.drop_append]

/-- C7 (counterexample): on a tunnel without the extension header, exactly
the configuration produced by gtp.NewGTP, the round trip does not return
the original payload: Decap (Encap [1]) = [0, 1]. -/
theorem gtp_decap_encap_cex :
    Decap ⟨0, 0, 0, false⟩ (Encap ⟨0, 0, 0, false⟩ [1]) = some [0, 1] ∧
      some [0, 1] ≠ some [1] := by
  constructor
  · rfl
  · decide

/-! ## C2: constrained whole numbers -/

set_option maxRecDepth 4000

/-- Go bits.Len of r-1 agrees with the ceiling logarithm of r, the bit
width prescribed by the specification for the bit-field case. -/
theorem bitsLen_pred_eq_clog (r : Nat) (hr : 2 ≤ r) :
    bitsLen (r - 1) = Nat.clog 2 r := by
  have h1 : r - 1 ≠ 0 := by omega
  have hlt : r - 1 < 2 ^ (Nat.log 2 (r - 1) + 1) :=
    Nat.lt_pow_succ_log_self (by norm_num) _
  have hle : 2 ^ Nat.log 2 (r - 1) ≤ r - 1 := Nat.pow_log_le_self 2 h1
  have hup : Nat.clog 2 r ≤ Nat.log 2 (r - 1) + 1 :=
    (Nat.le_pow_iff_clog_le (by norm_num)).mp (by omega)
  have hlo : Nat.log 2 (r - 1) + 1 ≤ Nat.clog 2 r := by
    by_contra h
    push_neg at h
    have h2 : Nat.clog 2 r ≤ Nat.log 2 (r - 1) := by omega
    have h3 : r ≤ 2 ^ Nat.log 2 (r - 1) :=
      (Nat.le_pow_iff_clog_le (by norm_num)).mpr h2
    omega
  unfold bitsLen
  rw [if_neg h1, Nat.log2_eq_log_two]
  omega

/-- Integers already inside the int64 range are fixed by the wrap. -/
theorem wrap64_eq_self (x : Int) (h1 : -(2 ^ 63) ≤ x) (h2 : x < 2 ^ 63) :
    wrap64 x = x := by
  unfold wrap64
  rw [Int.emod_eq_of_lt (by omega) (by omega)]
  omega

/-- C2 (amended): for min ≤ v ≤ max inside a comfortably non-overflowing
int64 window, the source encoder agrees with the specification cases for
every range R = max-min+1 up to 65536 (empty bit-field for R=1, a
ceil(log2 R)-bit field holding v-min for R<256, one octet for R=256, two
big-endian octets up to R=65536); for R > 65536 however the source emits
the fixed-width non-negative-binary-integer bytes of v itself — not of
v-min, without any length determinant, and with bits.Len(v)/8+1 octets
rather than the minimum count. -/
theorem encCWN_amended (v min max : Int)
    (hlo : -(2 ^ 61) ≤ min) (hhi : max ≤ 2 ^ 61)
    (h1 : min ≤ v) (h2 : v ≤ max) :
    (max - min + 1 ≤ 65536 →
      EncConstrainedWholeNumber v min max =
        .ok (specConstrainedWholeNumber v min max)) ∧
    (65536 < max - min + 1 →
      EncConstrainedWholeNumber v min max =
        .ok ⟨EncNonNegativeBinaryInteger (u64ofInt v), 0⟩) := by
  have hrw1 : wrap64 (max - min) = max - min := wrap64_eq_self _ (by omega) (by omega)
  have hrw2 : wrap64 (max - min + 1) = max - min + 1 :=
    wrap64_eq_self _ (by omega) (by omega)
  have hrw3 : wrap64 (v - min) = v - min := wrap64_eq_self _ (by omega) (by omega)
  have hnot : ¬(v < min ∨ v > max) := by omega
  unfold EncConstrainedWholeNumber specConstrainedWholeNumber
  rw [if_neg hnot, hrw1, hrw2, hrw3]
  set r : Int := max - min + 1 with hr
  set e : Int := v - min with he
  have he0 : 0 ≤ e := by omega
  have her : e ≤ r - 1 := by omega
  constructor
  · intro hsmall
    by_cases hc1 : r = 1
    · simp [hc1]
    · rw [if_neg hc1, if_neg hc1]
      by_cases hc2 : r < 256
      · have hefit : e < 256 := by omega
        have hbyte : byteOfInt e = e.toNat := by
          unfold byteOfInt
          rw [Int.emod_eq_of_lt (by omega) (by omega)]
        have hw : wrap64 (r - 1) = r - 1 := wrap64_eq_self _ (by omega) (by omega)
        have hu : u64ofInt (r - 1) = r.toNat - 1 := by
          unfold u64ofInt
          rw [Int.emod_eq_of_lt (by omega) (by omega)]
          omega
        have hclog : bitsLen (r.toNat - 1) = Nat.clog 2 r.toNat :=
          bitsLen_pred_eq_clog r.toNat (by omega)
        rw [if_pos hc2, if_pos hc2, hbyte, hw, hu, hclog]
      · rw [if_neg hc2, if_neg hc2]
        by_cases hc3 : r = 256
        · have hbyte : byteOfInt e = e.toNat := by
            unfold byteOfInt
            rw [Int.emod_eq_of_lt (by omega) (by omega)]
          rw [if_pos hc3, if_pos hc3, hbyte]
        · rw [if_neg hc3, if_neg hc3, if_pos (by omega), if_pos (by omega)]
          have hu16 : u16ofInt e = e.toNat := by
            unfold u16ofInt
            rw [Int.emod_eq_of_lt (by omega) (by omega)]
          rw [hu16]
  · intro hbig
    rw [if_neg (by omega), if_neg (by omega), if_neg (by omega),
      if_neg (by omega)]

/-- C2 (witness): the amended statement applied at v=5, min=0, max=7, a
range of 8 giving a 3-bit field holding 5. -/
theorem encCWN_amended_witness :
    EncConstrainedWholeNumber 5 0 7 = .ok (specConstrainedWholeNumber 5 0 7) :=
  (encCWN_amended 5 0 7 (by decide) (by decide) (by decide) (by decide)).1
    (by decide)

/-- C2 (counterexample): for v=0, min=0, max=65536 the range is 65537 >
65536, and the source emits the two bytes 0x00 0x00 — the fixed-width
non-negative binary integer encoding of v with no length determinant —
while the claim prescribes a length determinant followed by the
minimum-octet encoding, i.e. 0x01 0x00. -/
theorem encCWN_cex :
    EncConstrainedWholeNumber 0 0 65536 = .ok ⟨[0, 0], 0⟩ ∧
      specConstrainedWholeNumber 0 0 65536 = ⟨[1, 0], 0⟩ ∧
      EncConstrainedWholeNumber 0 0 65536 ≠
        .ok (specConstrainedWholeNumber 0 0 65536) := by
  refine ⟨by decide, by decide, by decide⟩

/-! ## C3: bit semantics of MergeBitField -/

theorem shiftLeft1_length (l : List Nat) : (shiftLeft1 l).length = l.length := by
  induction l with
  | nil => rfl
  | cons x r ih =>
    cases r with
    | nil => rfl
    | cons y s => simpa [shiftLeft1] using ih

theorem shiftLeft1_bytesWF (l : List Nat) (h : bytesWF l) :
    bytesWF (shiftLeft1 l) := by
  induction l with
  | nil => exact h
  | cons x r ih =>
    cases r with
    | nil =>
      intro z hz
      simp [shiftLeft1] at hz
      omega
    | cons y s =>
      intro z hz
      simp only [shiftLeft1, List.mem_cons] at hz
      rcases hz with h1 | h2
      · have hy : y < 256 := h y (by simp)
        omega
      · exact ih (fun u hu => h u (List.mem_cons_of_mem x hu)) z h2

theorem byteBits_shift (x y : Nat) (hy : y < 256) :
    byteBits (2 * x % 256 + y / 128) = (byteBits x).drop 1 ++ [y / 128] := by
  simp only [byteBits, List.drop, List.cons_append, List.nil_append,
    List.cons.injEq, and_true]
  omega

theorem byteBits_shift_last (x : Nat) :
    byteBits (2 * x % 256) = (byteBits x).drop 1 ++ [0] := by
  simp only [byteBits, List.drop, List.cons_append, List.nil_append,
    List.cons.injEq, and_true]
  omega

theorem bitsOf_length (l : List Nat) : (bitsOf l).length = 8 * l.length := by
  induction l with
  | nil => rfl
  | cons b r ih => simp [bitsOf, byteBits] at ih ⊢; omega

theorem bitsOf_cons (b : Nat) (r : List Nat) :
    bitsOf (b :: r) = byteBits b ++ bitsOf r := by
  simp [bitsOf]

theorem bitsOf_shiftLeft1 (l : List Nat) (h : bytesWF l) (hne : l ≠ []) :
    bitsOf (shiftLeft1 l) = (bitsOf l).drop 1 ++ [0] := by
  induction l with
  | nil => exact absurd rfl hne
  | cons x r ih =>
    cases r with
    | nil =>
      show bitsOf [2 * x % 256] = (bitsOf [x]).drop 1 ++ [0]
      rw [bitsOf_cons, bitsOf_cons, byteBits_shift_last x]
      have h8 : (byteBits x).length = 8 := by simp [byteBits]
      rw [List.drop_append_of_le_length (by omega)]
      simp [bitsOf]
    | cons y s =>
      have hy : y < 256 := h y (by simp)
      have hrec := ih (fun u hu => h u (List.mem_cons_of_mem x hu)) (by simp)
      have hhead : byteBits y = y / 128 :: (byteBits y).drop 1 := by
        have h2 : y / 128 % 2 = y / 128 := by omega
        simp [byteBits, h2]
      have hexp : bitsOf (y :: s) = y / 128 :: ((byteBits y).drop 1 ++ bitsOf s) := by
        rw [bitsOf_cons]
        conv_lhs => rw [hhead]
        simp
      have h8 : (byteBits x).length = 8 := by simp [byteBits]
      show bitsOf ((2 * x % 256 + y / 128) :: shiftLeft1 (y :: s)) =
        (bitsOf (x :: y :: s)).drop 1 ++ [0]
      rw [bitsOf_cons, byteBits_shift x y hy, hrec, bitsOf_cons x (y :: s),
        List.drop_append_of_le_length (by omega), hexp]
      simp

theorem iterate_shiftLeft1_length (k : Nat) (l : List Nat) :
    (Nat.iterate shiftLeft1 k l).length = l.length := by
  induction k with
  | zero => rfl
  | succ n ih => rw [Function.iterate_succ_apply', shiftLeft1_length]; exact ih

theorem iterate_shiftLeft1_bytesWF (k : Nat) (l : List Nat) (h : bytesWF l) :
    bytesWF (Nat.iterate shiftLeft1 k l) := by
  induction k with
  | zero => exact h
  | succ n ih => rw [Function.iterate_succ_apply']; exact shiftLeft1_bytesWF _ ih

theorem bitsOf_iterate (k : Nat) (l : List Nat) (h : bytesWF l)
    (hk : k ≤ 8 * l.length) :
    bitsOf (Nat.iterate shiftLeft1 k l) =
      (bitsOf l).drop k ++ List.replicate k 0 := by
  induction k with
  | zero => simp
  | succ n ih =>
    have hlen := iterate_shiftLeft1_length n l
    have hwf := iterate_shiftLeft1_bytesWF n l h
    have hne : Nat.iterate shiftLeft1 n l ≠ [] := by
      intro hc
      rw [hc] at hlen
      simp at hlen
      omega
    rw [Function.iterate_succ_apply', bitsOf_shiftLeft1 _ hwf hne, ih (by omega)]
    have hdl : ((bitsOf l).drop n).length = 8 * l.length - n := by
      simp [bitsOf_length]
    rw [List.drop_append_of_le_length (by omega), List.drop_drop,
      List.replicate_succ']
    simp [List.append_assoc]

theorem getD_bitsOf (l : List Nat) (i : Nat) (hi : i < 8 * l.length) :
    (bitsOf l).getD i 0 = bitAt l i := by
  induction l generalizing i with
  | nil => simp at hi
  | cons b r ih =>
    rw [bitsOf_cons]
    have hb : (byteBits b).length = 8 := by simp [byteBits]
    by_cases h8 : i < 8
    · rw [List.getD_append _ _ _ _ (by omega)]
      unfold bitAt
      have h0 : i / 8 = 0 := by omega
      have h1 : i % 8 = i := by omega
      rw [h0, h1, List.getD_cons_zero]
      interval_cases i <;> simp [byteBits]
    · rw [List.getD_append_right _ _ _ _ (by omega), hb]
      have hlen : i - 8 < 8 * r.length := by
        simp at hi
        omega
      rw [ih (i - 8) hlen]
      unfold bitAt
      have h0 : i / 8 = (i - 8) / 8 + 1 := by omega
      have h1 : i % 8 = (i - 8) % 8 := by omega
      rw [h0, List.getD_cons_succ, h1]

/-- Bitwise-or of bytes acts as maximum on single extracted bits. -/
theorem or_bit (p q m : Nat) :
    (p ||| q) / 2 ^ m % 2 = max (p / 2 ^ m % 2) (q / 2 ^ m % 2) := by
  have hp := @Nat.testBit_to_div_mod m p
  have hq := @Nat.testBit_to_div_mod m q
  have hpq := @Nat.testBit_to_div_mod m (p ||| q)
  have hl := Nat.testBit_lor p q m
  rw [hp, hq] at hl
  rw [hl] at hpq
  have hx : (p ||| q) / 2 ^ m % 2 < 2 := by omega
  rcases (show p / 2 ^ m % 2 = 0 ∨ p / 2 ^ m % 2 = 1 by omega) with h1 | h1 <;>
    rcases (show q / 2 ^ m % 2 = 0 ∨ q / 2 ^ m % 2 = 1 by omega) with h2 | h2 <;>
      rw [h1, h2] at hpq ⊢ <;> simp at hpq <;> omega

theorem bitsOf_append (l1 l2 : List Nat) :
    bitsOf (l1 ++ l2) = bitsOf l1 ++ bitsOf l2 := by
  simp [bitsOf]

theorem bitsOf_replicate_zero (n : Nat) :
    bitsOf (List.replicate n 0) = List.replicate (8 * n) 0 := by
  induction n with
  | zero => rfl
  | succ m ih =>
    rw [List.replicate_succ, bitsOf_cons, ih]
    have h8 : 8 * (m + 1) = 8 + 8 * m := by omega
    rw [h8, List.replicate_add]
    rfl

theorem getD_take (l : List Nat) (n m d : Nat) (h : m < n) :
    (l.take n).getD m d = l.getD m d := by
  induction l generalizing n m with
  | nil => simp
  | cons b r ih =>
    cases n with
    | zero => omega
    | succ p =>
      cases m with
      | zero => rfl
      | succ q => simpa using ih p q (by omega)

theorem getD_drop (l : List Nat) (n m d : Nat) :
    (l.drop n).getD m d = l.getD (n + m) d := by
  induction l generalizing n with
  | nil => simp
  | cons b r ih =>
    cases n with
    | zero => simp
    | succ p =>
      have := ih p
      simpa [Nat.succ_add] using this

theorem getD_zipWith_or (l1 l2 : List Nat) (n : Nat)
    (h1 : n < l1.length) (h2 : n < l2.length) :
    (List.zipWith (fun a b => a ||| b) l1 l2).getD n 0 =
      l1.getD n 0 ||| l2.getD n 0 := by
  induction l1 generalizing l2 n with
  | nil => simp at h1
  | cons x r ih =>
    cases l2 with
    | nil => simp at h2
    | cons y s =>
      cases n with
      | zero => rfl
      | succ m =>
        simp only [List.zipWith_cons_cons, List.getD_cons_succ]
        exact ih s m (by simpa using h1) (by simpa using h2)

theorem getD_replicate (n a m d : Nat) (h : m < n) :
    (List.replicate n a).getD m d = a := by
  induction n generalizing m with
  | zero => omega
  | succ p ih =>
    cases m with
    | zero => rfl
    | succ q => simpa [List.replicate_succ] using ih q (by omega)

/-- C3 (amended): for normalised bit fields whose combined bit length is
positive, MergeBitField returns a bit field whose length is the sum of the
two lengths, whose first a.Len bits are the bits of a, and whose following
b.Len bits are the bits of b.  (For two empty bit fields the Go code
panics on the final slice expression; see the counterexample.) -/
theorem mergeBF_amended (a b : BitField) (ha : WFbf a) (hb : WFbf b)
    (hpos : 0 < a.Len + b.Len) :
    ∃ out, MergeBitField a b = some out ∧ out.Len = a.Len + b.Len ∧
      (∀ i < a.Len, bfBit out i = bfBit a i) ∧
      (∀ j < b.Len, bfBit out (a.Len + j) = bfBit b j) := by
  obtain ⟨hLa, haB, haP⟩ := ha
  obtain ⟨hLb, hbB, hbP⟩ := hb
  set La := a.Value.length with hLa0
  set Lb := b.Value.length with hLb0
  have haLle : a.Len ≤ 8 * La := by omega
  have hk7 : 8 * La - a.Len ≤ 7 := by omega
  set k := 8 * La - a.Len with hk0
  set v0 : List Nat := List.replicate La 0 ++ b.Value with hv0
  have hv0len : v0.length = La + Lb := by simp [hv0]
  have hv0wf : bytesWF v0 := by
    intro x hx
    rw [hv0, List.mem_append] at hx
    rcases hx with h | h
    · have := List.eq_of_mem_replicate h
      omega
    · exact hbB x h
  have hitlen : (Nat.iterate shiftLeft1 k v0).length = La + Lb := by
    rw [iterate_shiftLeft1_length, hv0len]
  have hshv : (ShiftLeft ⟨v0, 0⟩ k).Value = Nat.iterate shiftLeft1 k v0 := by
    unfold ShiftLeft
    have hk8 : k / 8 = 0 := by omega
    simp only [hk8, Nat.sub_zero]
    rw [hv0len, ← hitlen]
    exact List.take_length _
  set shv := Nat.iterate shiftLeft1 k v0 with hshv0
  have hbitsSh : bitsOf shv =
      List.replicate a.Len 0 ++ (bitsOf b.Value ++ List.replicate k 0) := by
    rw [hshv0, bitsOf_iterate k v0 hv0wf (by rw [hv0len]; omega)]
    rw [hv0, bitsOf_append, bitsOf_replicate_zero]
    rw [List.drop_append_of_le_length (by simp; omega)]
    rw [List.drop_replicate]
    have : 8 * La - k = a.Len := by omega
    rw [this, List.append_assoc]
  set ored : List Nat := List.zipWith (fun x y => x ||| y) a.Value
      (shv.take La) ++ shv.drop La with hored
  have htakelen : (shv.take La).length = La := by
    rw [List.length_take, hitlen]
    omega
  have hziplen : (List.zipWith (fun x y => x ||| y) a.Value
      (shv.take La)).length = La := by
    rw [List.length_zipWith, htakelen]
    omega
  have hdroplen : (shv.drop La).length = Lb := by
    rw [List.length_drop, hitlen]
    omega
  have horedlen : ored.length = La + Lb := by
    rw [hored, List.length_append, hziplen, hdroplen]
  set octetlen := (a.Len + b.Len - 1) / 8 + 1 with hoct
  have hoctle : octetlen ≤ La + Lb := by omega
  -- the source computation reaches the success branch
  have hmerge : MergeBitField a b = some ⟨ored.take octetlen, a.Len + b.Len⟩ := by
    unfold MergeBitField
    simp only [← hv0, ← hk0, hshv, ← hshv0, ← hLa0]
    rw [if_pos (by rw [hitlen]; omega), ← hored, ← hoct,
      if_pos (by rw [horedlen]; omega)]
  -- byte n of ored
  have hbyte : ∀ n < La + Lb, ored.getD n 0 =
      (if n < La then a.Value.getD n 0 else 0) ||| shv.getD n 0 := by
    intro n hn
    by_cases hnL : n < La
    · rw [hored, List.getD_append _ _ _ _ (by rw [hziplen]; omega)]
      rw [getD_zipWith_or _ _ _ (by omega) (by rw [htakelen]; omega)]
      rw [getD_take _ _ _ _ hnL, if_pos hnL]
    · rw [hored, List.getD_append_right _ _ _ _ (by rw [hziplen]; omega)]
      rw [getD_drop, if_neg hnL]
      have hcalc : La + (n - (List.zipWith (fun x y => x ||| y) a.Value
          (shv.take La)).length) = n := by
        rw [hziplen]
        omega
      rw [hcalc]
      exact (Nat.zero_or _).symm
  -- bit i of ored for i below the total bit length
  have hbit : ∀ i < a.Len + b.Len, bitAt ored i =
      max ((if i / 8 < La then a.Value.getD (i / 8) 0 else 0) /
        2 ^ (7 - i % 8) % 2) (bitAt shv i) := by
    intro i hi
    have hidiv : i / 8 < La + Lb := by omega
    unfold bitAt
    rw [hbyte (i / 8) hidiv, or_bit]
  -- bits of shv at the two index zones
  have hshbit0 : ∀ i < a.Len, bitAt shv i = 0 := by
    intro i hi
    rw [← getD_bitsOf shv i (by rw [hitlen]; omega), hbitsSh]
    rw [List.getD_append _ _ _ _ (by simp; omega)]
    exact getD_replicate _ _ _ _ (by omega)
  have hshbitb : ∀ j < b.Len, bitAt shv (a.Len + j) = bfBit b j := by
    intro j hj
    rw [← getD_bitsOf shv (a.Len + j) (by rw [hitlen]; omega), hbitsSh]
    rw [List.getD_append_right _ _ _ _ (by simp)]
    have hs : a.Len + j - (List.replicate a.Len (0 : Nat)).length = j := by
      simp
    rw [hs, List.getD_append _ _ _ _ (by rw [bitsOf_length]; omega)]
    exact getD_bitsOf b.Value j (by omega)
  refine ⟨⟨ored.take octetlen, a.Len + b.Len⟩, hmerge, rfl, ?_, ?_⟩
  · intro i hi
    have hi8 : i / 8 < octetlen := by omega
    have houtbit : bfBit ⟨ored.take octetlen, a.Len + b.Len⟩ i = bitAt ored i := by
      unfold bfBit bitAt
      rw [getD_take _ _ _ _ hi8]
    rw [houtbit, hbit i (by omega), hshbit0 i hi]
    have hiL : i / 8 < La := by omega
    rw [if_pos hiL]
    unfold bfBit bitAt
    omega
  · intro j hj
    have hi8 : (a.Len + j) / 8 < octetlen := by omega
    have houtbit : bfBit ⟨ored.take octetlen, a.Len + b.Len⟩ (a.Len + j) =
        bitAt ored (a.Len + j) := by
      unfold bfBit bitAt
      rw [getD_take _ _ _ _ hi8]
    rw [houtbit, hbit (a.Len + j) (by omega), hshbitb j hj]
    by_cases hiL : (a.Len + j) / 8 < La
    · rw [if_pos hiL]
      have hpad : bfBit a (a.Len + j) = 0 :=
        haP (a.Len + j) (by omega) (by omega)
      unfold bfBit bitAt at hpad
      rw [hpad]
      have : bfBit b j ≤ 1 := by
        unfold bfBit bitAt
        omega
      omega
    · rw [if_neg hiL]
      have h0 : (0 : Nat) / 2 ^ (7 - (a.Len + j) % 8) % 2 = 0 := by
        simp
      rw [h0]
      have : bfBit b j ≤ 1 := by
        unfold bfBit bitAt
        omega
      omega

/-- C3 (counterexample): merging two empty bit fields makes the Go code
slice one octet out of an empty byte string, a run-time panic; the merge
does not return a BitField at all. -/
theorem mergeBF_cex : MergeBitField ⟨[], 0⟩ ⟨[], 0⟩ = none := by
  rfl

/-- C3 (witness): the amended statement applied to the 4-bit field 1010
and the 14-bit field 11101011110000. -/
theorem mergeBF_amended_witness :
    WFbf ⟨[160], 4⟩ ∧ WFbf ⟨[235, 192], 14⟩ ∧
      ∃ out, MergeBitField ⟨[160], 4⟩ ⟨[235, 192], 14⟩ = some out ∧
        out.Len = 4 + 14 ∧
        (∀ i < 4, bfBit out i = bfBit ⟨[160], 4⟩ i) ∧
        (∀ j < 14, bfBit out (4 + j) = bfBit ⟨[235, 192], 14⟩ j) := by
  refine ⟨?_, ?_, ?_⟩
  · constructor
    · decide
    · constructor
      · intro x hx
        simp at hx
        omega
      · decide
  · constructor
    · decide
    · constructor
      · intro x hx
        simp at hx
        omega
      · decide
  · exact mergeBF_amended ⟨[160], 4⟩ ⟨[235, 192], 14⟩
      ⟨by decide, by intro x hx; simp at hx; omega, by decide⟩
      ⟨by decide, by intro x hx; simp at hx; omega, by decide⟩
      (by decide)

/-! ## C4 and C10: NGAP protocol IE decoding -/

set_option maxHeartbeats 1000000

/-- C4: decoding an IE container that carries AMF-UE-NGAP-ID and then
RAN-UE-NGAPID for an existing camper copies the AMF id (here 258) into the
camper and completes without error, but with the two IEs in the opposite
order decRANUENGAPID dereferences the nil temporary-camper pointer and the
program panics: the decoder does not handle both orders. -/
theorem ngap_ie_order_bug :
    decProtocolIEContainer ⟨[⟨0, 1, CAMPER_TYPE_NORMAL⟩]⟩ none
        [0, 0, 2, 0, 10, 0, 2, 1, 2, 0, 85, 0, 2, 0, 1] =
      some (⟨[⟨258, 1, CAMPER_TYPE_NORMAL⟩]⟩, some (CamperRef.real 0),
        none, []) ∧
    decProtocolIEContainer ⟨[⟨0, 1, CAMPER_TYPE_NORMAL⟩]⟩ none
        [0, 0, 2, 0, 85, 0, 2, 0, 1, 0, 10, 0, 2, 1, 2] = none := by
  decide

/-- C10: with a declared IE length other than 2 both decAMFUENGAPID and
decRANUENGAPID return the unsupported-length error with a nil camper and
leave the value octets unconsumed. -/
theorem ngap_id_length_guard (gnb : GNB) (cTmp : Option CamperRef)
    (pdu : List Nat) (len1 : Nat) (h : len1 ≠ 2) :
    decAMFUENGAPID pdu len1 =
      some (none, some NgapErr.unsupportedIdLength, pdu) ∧
    decRANUENGAPID gnb cTmp pdu len1 =
      some (gnb, none, some NgapErr.unsupportedIdLength, pdu) := by
  unfold decAMFUENGAPID decRANUENGAPID
  simp [h]

/-- C10 (witness): the length guard applied to length 3. -/
theorem ngap_id_length_guard_witness :
    (3 : Nat) ≠ 2 ∧
    (decAMFUENGAPID [7, 7, 7] 3 =
      some (none, some NgapErr.unsupportedIdLength, [7, 7, 7]) ∧
    decRANUENGAPID ⟨[]⟩ none [7, 7, 7] 3 =
      some (⟨[]⟩, none, some NgapErr.unsupportedIdLength, [7, 7, 7])) :=
  ⟨by decide, ngap_id_length_guard ⟨[]⟩ none [7, 7, 7] 3 (by decide)⟩

/-! ## C9: RES* derivation -/

theorem sha256_length (msg : List Nat) : (sha256 msg).length = 32 := by
  simp [sha256, wordsToBytes]

theorem hmacSha256_length (key msg : List Nat) :
    (hmacSha256 key msg).length = 32 := by
  unfold hmacSha256
  exact sha256_length _

theorem charBytes_pad3 (n : Nat) (h : n ≤ 999) :
    charBytes (pad3 n) = specThreeDigits n := by
  have hb : ∀ m, m < 1000 → charBytes (pad3 m) = specThreeDigits m := by
    decide
  exact hb n (by omega)

theorem snn_spec (ue : UE) (h1 : ue.MCC ≤ 999) (h2 : ue.MNC ≤ 999) :
    snn ue = specSNN ue.MCC ue.MNC := by
  unfold snn specSNN
  rw [charBytes_pad3 ue.MNC h2, charBytes_pad3 ue.MCC h1]

theorem u16bytes_specL (p : List Nat) (h : p.length < 65536) :
    u16bytes p.length = specL p := by
  simp [u16bytes, specL, Nat.mod_eq_of_lt h]

/-- C9: ComputeRESstar stores the 128 least-significant bits of
HMAC-SHA-256 keyed with CK concatenated with IK over FC 0x6B, the serving
network name, RAND and RES, each parameter followed by its big-endian
two-byte length, the serving network name being
5G:mncNNN.mccNNN.3gppnetwork.org with MNC and MCC zero-padded to three
digits. -/
theorem computeRESstar_spec (ue : UE) (rand res ck ik : List Nat)
    (h1 : ue.MCC ≤ 999) (h2 : ue.MNC ≤ 999)
    (h3 : rand.length < 65536) (h4 : res.length < 65536) :
    (ComputeRESstar ue rand res ck ik).AuthParam.RESstar =
      specRESstar ue.MCC ue.MNC rand res ck ik := by
  have hsnn : snn ue = specSNN ue.MCC ue.MNC := snn_spec ue h1 h2
  have hlen : (snn ue).length < 65536 := by
    rw [hsnn]
    simp [specSNN, specThreeDigits, charBytes]
  have e1 := u16bytes_specL (snn ue) hlen
  rw [hsnn] at e1
  simp only [ComputeRESstar, specRESstar, hsnn, e1,
    u16bytes_specL rand h3, u16bytes_specL res h4, hmacSha256_length]

/-- C9 (witness): the RES* equation applied to the test UE and the
test-vector RAND with an eight-byte RES and placeholder CK and IK. -/
theorem computeRESstar_spec_witness :
    (testUE.MCC ≤ 999 ∧ testUE.MNC ≤ 999 ∧
      (hexDecode "21fc64081953bb33c0682edf1690b258".toList).length < 65536 ∧
      ([1, 2, 3, 4, 5, 6, 7, 8] : List Nat).length < 65536) ∧
    (ComputeRESstar testUE (hexDecode "21fc64081953bb33c0682edf1690b258".toList)
        [1, 2, 3, 4, 5, 6, 7, 8] (List.replicate 16 1)
        (List.replicate 16 2)).AuthParam.RESstar =
      specRESstar testUE.MCC testUE.MNC
        (hexDecode "21fc64081953bb33c0682edf1690b258".toList)
        [1, 2, 3, 4, 5, 6, 7, 8] (List.replicate 16 1)
        (List.replicate 16 2) :=
  ⟨⟨by decide, by decide, by decide, by decide⟩,
    computeRESstar_spec testUE (hexDecode "21fc64081953bb33c0682edf1690b258".toList)
      [1, 2, 3, 4, 5, 6, 7, 8] (List.replicate 16 1) (List.replicate 16 2)
      (by decide) (by decide) (by decide) (by decide)⟩

/-! ## C1, C6 and C8: the security-protected NAS header

Length facts for the AES-CMAC chain, needed to know that a computed MAC
is four bytes long. -/

theorem xorBytes_length (a b : List Nat) :
    (xorBytes a b).length = min a.length b.length := by
  simp [xorBytes]

theorem shiftRows_length (l : List Nat) : (shiftRows l).length = 16 :=
  rfl

theorem mixColumns_length : ∀ l : List Nat, (mixColumns l).length = l.length
  | a :: b :: c :: d :: r => by
    simp [mixColumns, mixCol, mixColumns_length r]
  | [] => rfl
  | [_] => rfl
  | [_, _] => rfl
  | [_, _, _] => rfl

theorem rotWord_length (w : List Nat) : (rotWord w).length = w.length := by
  simp [rotWord]
  omega

theorem aesExpand_facts : ∀ (n i : Nat) (acc : List (List Nat)),
    4 ≤ acc.length → (∀ w ∈ acc, w.length = 4) →
    (aesExpand n i acc).length = n + acc.length ∧
    (∀ w ∈ aesExpand n i acc, w.length = 4) := by
  intro n
  induction n with
  | zero =>
    intro i acc _ h2
    exact ⟨by simp [aesExpand], by simpa [aesExpand] using h2⟩
  | succ n ih =>
    intro i acc h1 h2
    have h0m : acc.getD 0 [] ∈ acc := by
      rw [List.getD_eq_getElem acc [] (by omega)]
      exact List.getElem_mem _
    have h3m : acc.getD 3 [] ∈ acc := by
      rw [List.getD_eq_getElem acc [] (by omega)]
      exact List.getElem_mem _
    have hl0 : (acc.getD 0 []).length = 4 := h2 _ h0m
    have hl3 : (acc.getD 3 []).length = 4 := h2 _ h3m
    have step : aesExpand (n + 1) i acc = aesExpand n (i + 1)
        (xorBytes (acc.getD 3 [])
          (if i % 4 = 0 then
            xorBytes ((rotWord (acc.getD 0 [])).map subByte)
              [aesRcon.getD (i / 4 - 1) 0, 0, 0, 0]
          else acc.getD 0 []) :: acc) := rfl
    have hnew : (xorBytes (acc.getD 3 [])
        (if i % 4 = 0 then
          xorBytes ((rotWord (acc.getD 0 [])).map subByte)
            [aesRcon.getD (i / 4 - 1) 0, 0, 0, 0]
        else acc.getD 0 [])).length = 4 := by
      split
      · rw [xorBytes_length, hl3, xorBytes_length, List.length_map,
          rotWord_length, hl0]
        simp
      · rw [xorBytes_length, hl3, hl0]
        simp
    obtain ⟨L, M⟩ := ih (i + 1)
      (xorBytes (acc.getD 3 [])
        (if i % 4 = 0 then
          xorBytes ((rotWord (acc.getD 0 [])).map subByte)
            [aesRcon.getD (i / 4 - 1) 0, 0, 0, 0]
        else acc.getD 0 []) :: acc)
      (by simp; omega)
      (by
        intro w hw
        rcases List.mem_cons.mp hw with rfl | hw
        · exact hnew
        · exact h2 w hw)
    constructor
    · rw [step, L]
      simp
      omega
    · rw [step]
      exact M

theorem flatten_len4 : ∀ L : List (List Nat), (∀ w ∈ L, w.length = 4) →
    L.flatten.length = 4 * L.length
  | [], _ => rfl
  | a :: t, h => by
    have ih := flatten_len4 t (fun w hw => h w (List.mem_cons_of_mem a hw))
    simp [h a (List.mem_cons_self a t), ih]
    omega

theorem aesRoundKeys_rk_length (key : List Nat) (h : key.length = 16)
    (r : Nat) (hr : r < 11) : ((aesRoundKeys key).getD r []).length = 16 := by
  obtain ⟨hL, hM⟩ := aesExpand_facts 40 4
    [(key.drop 12).take 4, (key.drop 8).take 4, (key.drop 4).take 4,
      key.take 4]
    (by simp)
    (by
      intro w hw
      simp at hw
      rcases hw with rfl | rfl | rfl | rfl <;> simp [h])
  have hrev : (aesRoundKeys key).getD r [] =
      (((aesExpand 40 4 [(key.drop 12).take 4, (key.drop 8).take 4,
        (key.drop 4).take 4, key.take 4]).reverse.drop (4 * r)).take 4).flatten := by
    rw [aesRoundKeys]
    rw [List.getD_eq_getElem _ _ (by simpa using hr)]
    simp
  have hL44 : (aesExpand 40 4 [(key.drop 12).take 4, (key.drop 8).take 4,
      (key.drop 4).take 4, key.take 4]).length = 44 := by
    rw [hL]
    simp
  rw [hrev, flatten_len4]
  · rw [List.length_take, List.length_drop, List.length_reverse, hL44]
    omega
  · intro w hw
    exact hM w (List.mem_reverse.mp
      (List.mem_of_mem_drop (List.mem_of_mem_take hw)))

theorem aesEncryptBlock_length (key block : List Nat) (h : key.length = 16) :
    (aesEncryptBlock key block).length = 16 := by
  have h10 := aesRoundKeys_rk_length key h 10 (by omega)
  simp only [aesEncryptBlock]
  rw [xorBytes_length, shiftRows_length, h10]
  simp

theorem cmacGo_length : ∀ (fuel : Nat) (key k1 k2 x rest : List Nat),
    key.length = 16 → x.length = 16 →
    (cmacGo fuel key k1 k2 x rest).length = 16
  | 0, _, _, _, _, _, _, hx => hx
  | fuel + 1, key, k1, k2, x, rest, hk, _ => by
    unfold cmacGo
    split
    · exact aesEncryptBlock_length _ _ hk
    split
    · exact aesEncryptBlock_length _ _ hk
    · exact cmacGo_length fuel key k1 k2 _ _ hk
        (aesEncryptBlock_length _ _ hk)

theorem cmacAes_length (key msg : List Nat) (h : key.length = 16) :
    (cmacAes key msg).length = 16 := by
  unfold cmacAes
  exact cmacGo_length _ _ _ _ _ _ h (by simp)

/-- A UE with a 16-byte integrity key computes a 4-byte MAC over any
non-empty buffer. -/
theorem computeMAC_some (ue : UE) (dir : Nat) (pdu : List Nat)
    (hk : ue.AuthParam.Kint.length = 16) (hp : pdu ≠ []) :
    ∃ mac, ComputeMAC ue dir pdu = some mac ∧ mac.length = 4 := by
  cases pdu with
  | nil => exact absurd rfl hp
  | cons c r =>
    refine ⟨(cmacAes ue.AuthParam.Kint
      ([0, 0, 0, c, 8 + 4 * dir, 0, 0, 0] ++ c :: r)).take 4, ?_, ?_⟩
    · simp [ComputeMAC, hk]
    · simp [List.length_take, cmacAes_length _ _ hk]

/-- Decode of a security-protected frame whose MAC does not match the
receiver's calculation: the error is recorded and the buffer cleared. -/
theorem decodeNas_macfail (fuel : Nat) (ue : UE) (ht : Nat)
    (mac body macCalc : List Nat)
    (hht : ht ≠ 0) (hw : ue.wa.securityHeaderParsed = false)
    (hm : mac.length = 4) (hb : body ≠ [])
    (hc : ComputeMAC ue 1 body = some macCalc) (hne : mac ≠ macCalc) :
    decodeNas (fuel + 1) ue ([126, ht] ++ mac ++ body) =
      some ({ue with DecodeError := some NasErr.integrityCheckFailed},
        [], 0) := by
  cases body with
  | nil => exact absurd rfl hb
  | cons b t =>
    have hc' : ComputeMAC {ue with DecodeError := none} 1 (b :: t) =
        some macCalc := hc
    have htake : (mac ++ b :: t).take 4 = mac := List.take_left' hm
    have hdrop : (mac ++ b :: t).drop 4 = b :: t := List.drop_left' hm
    have hlen : 4 ≤ mac.length + (t.length + 1) := by omega
    simp [decodeNas, decode5GMM, readPduByte, readPduByteSlice, hlen,
      htake, hdrop, hc', hht, hw, hne, hm]

/-- C1 (amended): with a 16-byte integrity key the encoder emits the
outer frame EPD 0x7E, SHT, MAC, seq, P, where seq is the low byte of
NasCount and the MAC is computed over seq, P with direction bit 0 — but
the decoder recomputes the MAC with direction bit 1, so whenever the two
direction-dependent MACs differ, decoding the frame the encoder just
emitted fails the integrity check, clears the buffer and records the
decode error instead of yielding P. -/
theorem nas_secure_roundtrip_amended (ue : UE) (ht : Nat) (P : List Nat)
    (fuel : Nat) (hk : ue.AuthParam.Kint.length = 16) (hp : P ≠ [])
    (hht : ht ≠ 0) (hw : ue.wa.securityHeaderParsed = false) :
    ∃ mac0 mac1 : List Nat,
      ComputeMAC ue 0 (ue.NasCount % 256 :: P) = some mac0 ∧
      ComputeMAC ue 1 (ue.NasCount % 256 :: P) = some mac1 ∧
      enc5GSecurityProtectedMessageHeader ue ht P =
        some ([126, ht] ++ mac0,
          {ue with NasCount := (ue.NasCount + 1) % 4294967296},
          ue.NasCount % 256 :: P) ∧
      (mac0 ≠ mac1 →
        decodeNas (fuel + 1) ue
            ([126, ht] ++ mac0 ++ ue.NasCount % 256 :: P) =
          some ({ue with DecodeError := some NasErr.integrityCheckFailed},
            [], 0)) := by
  obtain ⟨mac0, hm0, hl0⟩ :=
    computeMAC_some ue 0 (ue.NasCount % 256 :: P) hk (by simp)
  obtain ⟨mac1, hm1, _⟩ :=
    computeMAC_some ue 1 (ue.NasCount % 256 :: P) hk (by simp)
  refine ⟨mac0, mac1, hm0, hm1, ?_, ?_⟩
  · simp [enc5GSecurityProtectedMessageHeader, hm0]
  · intro hne
    exact decodeNas_macfail fuel ue ht mac0 (ue.NasCount % 256 :: P) mac1
      hht hw hl0 (by simp) hm1 hne

/-- C1 (witness): the amended statement applied to the test UE with its
derived integrity key, header type 4 and the plain Registration
Complete. -/
theorem nas_secure_roundtrip_amended_witness :
    (({testUE with AuthParam.Kint := derivedKint} : UE).AuthParam.Kint.length
        = 16 ∧
      ([126, 0, 67] : List Nat) ≠ [] ∧ (4 : Nat) ≠ 0 ∧
      ({testUE with AuthParam.Kint := derivedKint} : UE).wa.securityHeaderParsed
        = false) ∧
    ∃ mac0 mac1 : List Nat,
      ComputeMAC {testUE with AuthParam.Kint := derivedKint} 0
          (({testUE with AuthParam.Kint := derivedKint} : UE).NasCount % 256
            :: [126, 0, 67]) = some mac0 ∧
      ComputeMAC {testUE with AuthParam.Kint := derivedKint} 1
          (({testUE with AuthParam.Kint := derivedKint} : UE).NasCount % 256
            :: [126, 0, 67]) = some mac1 ∧
      enc5GSecurityProtectedMessageHeader
          {testUE with AuthParam.Kint := derivedKint} 4 [126, 0, 67] =
        some ([126, 4] ++ mac0,
          {{testUE with AuthParam.Kint := derivedKint} with NasCount :=
            (({testUE with AuthParam.Kint := derivedKint} : UE).NasCount + 1)
              % 4294967296},
          ({testUE with AuthParam.Kint := derivedKint} : UE).NasCount % 256
            :: [126, 0, 67]) ∧
      (mac0 ≠ mac1 →
        decodeNas (9 + 1) {testUE with AuthParam.Kint := derivedKint}
            ([126, 4] ++ mac0 ++
              ({testUE with AuthParam.Kint := derivedKint} : UE).NasCount
                % 256 :: [126, 0, 67]) =
          some ({{testUE with AuthParam.Kint := derivedKint} with
            DecodeError := some NasErr.integrityCheckFailed}, [], 0)) :=
  ⟨⟨by decide, by decide, by decide, by decide⟩,
    nas_secure_roundtrip_amended {testUE with AuthParam.Kint := derivedKint}
      4 [126, 0, 67] 9 (by decide) (by decide) (by decide) (by decide)⟩

/-- C1 (counterexample): the test UE emits the protected Registration
Complete of the test vectors (MAC 006d1298, computed with direction bit
0), and decoding that very frame with the same UE fails the integrity
check because the decoder computes the MAC with direction bit 1. -/
theorem nas_secure_roundtrip_cex :
    enc5GSecurityProtectedMessageHeader
        {testUE with AuthParam.Kint := derivedKint} 4 [126, 0, 67] =
      some ([126, 4, 0, 109, 18, 152],
        {testUE with AuthParam := {testUE.AuthParam with Kint := derivedKint}, NasCount := 1},
        [0, 126, 0, 67]) ∧
    decodeNas 10 {testUE with AuthParam.Kint := derivedKint}
        ([126, 4, 0, 109, 18, 152] ++ [0, 126, 0, 67]) =
      some ({testUE with
        AuthParam := {testUE.AuthParam with Kint := derivedKint},
        DecodeError := some NasErr.integrityCheckFailed}, [], 0) := by
  decide

/-- C8 (amended): the encoder of a security-protected message emits the
low byte of NasCount as the sequence number and afterwards replaces
NasCount by (NasCount + 1) mod 2^32: the emitted byte equals the counter
only below 256, and the counter is strictly monotonic only until it wraps
at 2^32 - 1. -/
theorem nasCount_amended (ue : UE) (ht : Nat) (P : List Nat)
    (hk : ue.AuthParam.Kint.length = 16) (hp : P ≠ []) :
    ∃ mac, enc5GSecurityProtectedMessageHeader ue ht P =
      some ([126, ht] ++ mac,
        {ue with NasCount := (ue.NasCount + 1) % 4294967296},
        ue.NasCount % 256 :: P) := by
  obtain ⟨mac0, hm0, _⟩ :=
    computeMAC_some ue 0 (ue.NasCount % 256 :: P) hk (by simp)
  exact ⟨mac0, by simp [enc5GSecurityProtectedMessageHeader, hm0]⟩

/-- C8 (witness): the amended statement applied to the test UE with its
derived integrity key. -/
theorem nasCount_amended_witness :
    (({testUE with AuthParam.Kint := derivedKint} : UE).AuthParam.Kint.length
        = 16 ∧ ([126, 0, 67] : List Nat) ≠ []) ∧
    ∃ mac, enc5GSecurityProtectedMessageHeader
        {testUE with AuthParam.Kint := derivedKint} 4 [126, 0, 67] =
      some ([126, 4] ++ mac,
        {{testUE with AuthParam.Kint := derivedKint} with NasCount :=
          (({testUE with AuthParam.Kint := derivedKint} : UE).NasCount + 1)
            % 4294967296},
        ({testUE with AuthParam.Kint := derivedKint} : UE).NasCount % 256
          :: [126, 0, 67]) :=
  ⟨⟨by decide, by decide⟩,
    nasCount_amended {testUE with AuthParam.Kint := derivedKint} 4
      [126, 0, 67] (by decide) (by decide)⟩

/-- C8 (counterexample): at NasCount 2^32 - 1 the counter wraps to 0
instead of increasing, and at NasCount 256 the emitted sequence byte is 0,
not the counter value. -/
theorem nasCount_cex :
    (enc5GSecurityProtectedMessageHeader
        {testUE with AuthParam.Kint := derivedKint, NasCount := 4294967295}
        4 [126, 0, 67]).map (fun r => (r.2.1.NasCount, r.2.2.take 1)) =
      some (0, [255]) ∧
    (enc5GSecurityProtectedMessageHeader
        {testUE with AuthParam.Kint := derivedKint, NasCount := 256}
        4 [126, 0, 67]).map (fun r => (r.2.1.NasCount, r.2.2.take 1)) =
      some (257, [0]) := by
  decide

/-- C6 (amended): a received security-protected message whose MAC does not
match the receiver's calculation makes Decode record the integrity decode
error and clear the buffer, with no other change to the UE — in particular
the receive state keeps its previous value, so the next MakeNasPdu call
returns an empty PDU exactly when no earlier downlink had set the receive
state (rcvdNull); a stale receive state still produces a message. -/
theorem nas_macfail_state_amended (ue : UE) (ht : Nat)
    (mac body macCalc : List Nat) (fuel : Nat)
    (hht : ht ≠ 0) (hw : ue.wa.securityHeaderParsed = false)
    (hm : mac.length = 4) (hb : body ≠ [])
    (hc : ComputeMAC ue 1 body = some macCalc) (hne : mac ≠ macCalc) :
    decodeNas (fuel + 1) ue ([126, ht] ++ mac ++ body) =
      some ({ue with DecodeError := some NasErr.integrityCheckFailed},
        [], 0) ∧
    ({ue with DecodeError := some NasErr.integrityCheckFailed} : UE).Recv.state
      = ue.Recv.state ∧
    (ue.Recv.state = rcvdNull →
      MakeNasPdu {ue with DecodeError := some NasErr.integrityCheckFailed} =
        some ({ue with DecodeError := some NasErr.integrityCheckFailed},
          [])) := by
  refine ⟨decodeNas_macfail fuel ue ht mac body macCalc hht hw hm hb hc hne,
    rfl, ?_⟩
  intro h0
  simp [MakeNasPdu, h0, rcvdNull, rcvdAuthenticationRequest,
    rcvdSecurityModeCommand, rcvdRegistrationAccept]

/-- C6 (witness): the amended statement applied to the test UE (receive
state rcvdNull) and a frame with a wrong MAC over the Registration
Complete body; the correct direction-1 MAC is 31c4a3ab. -/
theorem nas_macfail_state_amended_witness :
    ((4 : Nat) ≠ 0 ∧
      ({testUE with AuthParam.Kint := derivedKint} : UE).wa.securityHeaderParsed
        = false ∧
      ([9, 9, 9, 9] : List Nat).length = 4 ∧
      ([0, 126, 0, 67] : List Nat) ≠ [] ∧
      ComputeMAC {testUE with AuthParam.Kint := derivedKint} 1
        [0, 126, 0, 67] = some [49, 196, 163, 171] ∧
      ([9, 9, 9, 9] : List Nat) ≠ [49, 196, 163, 171]) ∧
    (decodeNas (9 + 1) {testUE with AuthParam.Kint := derivedKint}
        ([126, 4] ++ [9, 9, 9, 9] ++ [0, 126, 0, 67]) =
      some ({{testUE with AuthParam.Kint := derivedKint} with
        DecodeError := some NasErr.integrityCheckFailed}, [], 0) ∧
    ({{testUE with AuthParam.Kint := derivedKint} with
      DecodeError := some NasErr.integrityCheckFailed} : UE).Recv.state =
      ({testUE with AuthParam.Kint := derivedKint} : UE).Recv.state ∧
    (({testUE with AuthParam.Kint := derivedKint} : UE).Recv.state = rcvdNull →
      MakeNasPdu {{testUE with AuthParam.Kint := derivedKint} with
          DecodeError := some NasErr.integrityCheckFailed} =
        some ({{testUE with AuthParam.Kint := derivedKint} with
          DecodeError := some NasErr.integrityCheckFailed}, []))) :=
  ⟨⟨by decide, by decide, by decide, by decide, by decide, by decide⟩,
    nas_macfail_state_amended {testUE with AuthParam.Kint := derivedKint} 4
      [9, 9, 9, 9] [0, 126, 0, 67] [49, 196, 163, 171] 9
      (by decide) (by decide) (by decide) (by decide) (by decide) (by decide)⟩

/-- C6 (counterexample): after a failed integrity check the receive state
is stale but not cleared: a UE that had received the Authentication
Request (receive state 1, RES* set) still answers the next MakeNasPdu
call with the 21-byte Authentication Response instead of nothing. -/
theorem nas_macfail_state_cex :
    decodeNas 10
        {testUE with
          AuthParam := {testUE.AuthParam with Kint := derivedKint, RESstar := derivedRESstar},
          Recv := {testUE.Recv with state := rcvdAuthenticationRequest}}
        ([126, 4] ++ [9, 9, 9, 9] ++ [0, 126, 0, 67]) =
      some ({testUE with
        AuthParam := {testUE.AuthParam with Kint := derivedKint, RESstar := derivedRESstar},
        Recv := {testUE.Recv with state := rcvdAuthenticationRequest},
        DecodeError := some NasErr.integrityCheckFailed}, [], 0) ∧
    (MakeNasPdu {testUE with
        AuthParam := {testUE.AuthParam with Kint := derivedKint, RESstar := derivedRESstar},
        Recv := {testUE.Recv with state := rcvdAuthenticationRequest},
        DecodeError := some NasErr.integrityCheckFailed}).map
      (fun r => r.2) =
      some ([126, 0, 87, 45, 16] ++ derivedRESstar) := by
  decide

/-! ## C5: Registration Accept and the 5GMM state

None of the information-element decoders reached from decRegistrationAccept
touches the 5GMM sublayer state; the lemmas walk every branch. -/

theorem decIMEISVRequest_st (ue : UE) (pdu : List Nat) (u : UE)
    (p : List Nat) (h : decIMEISVRequest ue pdu = some (u, p)) :
    u.state5GMM = ue.state5GMM := by
  cases pdu with
  | nil => simp [decIMEISVRequest, readPduByte] at h
  | cons a r =>
    simp [decIMEISVRequest, readPduByte] at h
    obtain ⟨h1, _⟩ := h
    subst h1
    split <;> rfl

theorem decNSSAIloop_st : ∀ (fuel : Nat) (rem : Int) (ue : UE)
    (pdu : List Nat) (u : UE) (p : List Nat),
    decNSSAIloop fuel rem ue pdu = some (u, p) →
    u.state5GMM = ue.state5GMM := by
  intro fuel
  induction fuel with
  | zero =>
    intro rem ue pdu u p h
    unfold decNSSAIloop at h
    split at h
    · simp at h
      obtain ⟨rfl, rfl⟩ := h
      rfl
    · exact absurd h (by simp)
  | succ n ih =>
    intro rem ue pdu u p h
    unfold decNSSAIloop at h
    split at h
    · simp at h
      obtain ⟨rfl, rfl⟩ := h
      rfl
    · simp only [Option.bind_eq_bind, Option.bind_eq_some] at h
      obtain ⟨⟨sn, p1⟩, _, h2⟩ := h
      have hx := ih _ _ _ _ _ h2
      exact hx

theorem decNSSAI_st (ue : UE) (pdu : List Nat) (u : UE) (p : List Nat)
    (h : decNSSAI ue pdu = some (u, p)) : u.state5GMM = ue.state5GMM := by
  simp only [decNSSAI, Option.bind_eq_bind, Option.bind_eq_some] at h
  obtain ⟨⟨len1, p1⟩, _, h2⟩ := h
  exact decNSSAIloop_st _ _ _ _ _ _ h2

theorem decGPRSTimer2_st (ue : UE) (pdu : List Nat) (u : UE) (p : List Nat)
    (h : decGPRSTimer2 ue pdu = some (u, p)) :
    u.state5GMM = ue.state5GMM := by
  rcases pdu with _ | ⟨a, _ | ⟨b, r⟩⟩ <;> simp [decGPRSTimer2] at h
  obtain ⟨rfl, rfl⟩ := h
  rfl

theorem decGPRSTimer3_st (ue : UE) (pdu : List Nat) (u : UE) (p : List Nat)
    (h : decGPRSTimer3 ue pdu = some (u, p)) :
    u.state5GMM = ue.state5GMM := by
  rcases pdu with _ | ⟨a, _ | ⟨b, r⟩⟩ <;> simp [decGPRSTimer3] at h
  obtain ⟨rfl, rfl⟩ := h
  rfl

theorem decAuthParamAUTN_st (ue : UE) (pdu : List Nat) (u : UE)
    (p : List Nat) (h : decAuthParamAUTN ue pdu = some (u, p)) :
    u.state5GMM = ue.state5GMM := by
  simp only [decAuthParamAUTN, Option.bind_eq_bind, Option.bind_eq_some] at h
  obtain ⟨⟨len1, p1⟩, _, h⟩ := h
  obtain ⟨⟨autn, p2⟩, _, h⟩ := h
  split at h
  · simp at h
    obtain ⟨rfl, rfl⟩ := h
    rfl
  · exact absurd h (by simp)

theorem decAuthParamRAND_st (ue : UE) (pdu : List Nat) (u : UE)
    (p : List Nat) (h : decAuthParamRAND ue pdu = some (u, p)) :
    u.state5GMM = ue.state5GMM := by
  simp only [decAuthParamRAND, Option.bind_eq_bind, Option.bind_eq_some] at h
  obtain ⟨⟨rand, p1⟩, _, h⟩ := h
  simp at h
  obtain ⟨rfl, rfl⟩ := h
  rfl

theorem decPDUAddress_st (ue : UE) (pdu : List Nat) (u : UE) (p : List Nat)
    (h : decPDUAddress ue pdu = some (u, p)) :
    u.state5GMM = ue.state5GMM := by
  simp only [decPDUAddress, Option.bind_eq_bind, Option.bind_eq_some] at h
  obtain ⟨⟨len1, p1⟩, _, h⟩ := h
  obtain ⟨⟨ty, p2⟩, _, h⟩ := h
  split at h
  · simp only [Option.bind_eq_bind, Option.bind_eq_some] at h
    obtain ⟨⟨addr, p3⟩, _, h⟩ := h
    simp at h
    obtain ⟨rfl, rfl⟩ := h
    rfl
  · simp at h
    obtain ⟨rfl, rfl⟩ := h
    rfl

theorem decAdditional5GSecInfo_st (ue : UE) (pdu : List Nat) (u : UE)
    (p : List Nat) (h : decAdditional5GSecInfo ue pdu = some (u, p)) :
    u.state5GMM = ue.state5GMM := by
  simp only [decAdditional5GSecInfo, Option.bind_eq_bind, Option.bind_eq_some] at h
  obtain ⟨⟨len1, p1⟩, _, h⟩ := h
  split at h
  · simp only [Option.bind_eq_bind, Option.bind_eq_some] at h
    obtain ⟨⟨v, p2⟩, _, h⟩ := h
    simp at h
    obtain ⟨rfl, rfl⟩ := h
    rfl
  · simp only [Option.bind_eq_bind, Option.bind_eq_some] at h
    obtain ⟨v, _, h⟩ := h
    obtain ⟨⟨w, p2⟩, _, h⟩ := h
    simp at h
    obtain ⟨rfl, rfl⟩ := h
    rfl

theorem decTACloop_st : ∀ (num mcc mnc : Nat) (ue : UE) (pdu : List Nat)
    (u : UE) (p : List Nat), decTACloop num mcc mnc ue pdu = some (u, p) →
    u.state5GMM = ue.state5GMM := by
  intro num
  induction num with
  | zero =>
    intro mcc mnc ue pdu u p h
    simp [decTACloop] at h
    obtain ⟨rfl, rfl⟩ := h
    rfl
  | succ n ih =>
    intro mcc mnc ue pdu u p h
    simp only [decTACloop, Option.bind_eq_bind, Option.bind_eq_some] at h
    obtain ⟨⟨tac, p1⟩, _, h2⟩ := h
    have hx := ih _ _ _ _ _ _ h2
    exact hx

theorem decTAIListType00_st (ue : UE) (pdu : List Nat) (num : Nat) (u : UE)
    (p : List Nat) (h : decTAIListType00 ue pdu num = some (u, p)) :
    u.state5GMM = ue.state5GMM := by
  simp only [decTAIListType00, Option.bind_eq_bind, Option.bind_eq_some] at h
  obtain ⟨⟨mcc, mnc, p1⟩, _, h2⟩ := h
  exact decTACloop_st _ _ _ _ _ _ _ h2

theorem decTAIList_st (ue : UE) (pdu : List Nat) (u : UE) (p : List Nat)
    (h : decTAIList ue pdu = some (u, p)) : u.state5GMM = ue.state5GMM := by
  simp only [decTAIList, Option.bind_eq_bind, Option.bind_eq_some] at h
  obtain ⟨⟨len1, p1⟩, _, h⟩ := h
  obtain ⟨⟨tmp, p2⟩, _, h⟩ := h
  split at h
  · exact decTAIListType00_st _ _ _ _ _ h
  · simp only [Option.bind_eq_bind, Option.bind_eq_some] at h
    obtain ⟨⟨v, p3⟩, _, h⟩ := h
    simp at h
    obtain ⟨rfl, rfl⟩ := h
    rfl

theorem dec5GSMobileID_st (ue : UE) (pdu : List Nat) (u : UE) (p : List Nat)
    (h : dec5GSMobileID ue pdu = some (u, p)) :
    u.state5GMM = ue.state5GMM := by
  simp only [dec5GSMobileID, Option.bind_eq_bind, Option.bind_eq_some] at h
  obtain ⟨⟨len1, p1⟩, _, h⟩ := h
  obtain ⟨⟨tmp, p2⟩, _, h⟩ := h
  obtain ⟨⟨val, p3⟩, _, h⟩ := h
  simp at h
  obtain ⟨h1, rfl⟩ := h
  subst h1
  split <;> rfl

theorem decIEdispatch_st (iei : Nat) (ue : UE) (pdu1 : List Nat) (u : UE)
    (p : List Nat) (h : decIEdispatch iei ue pdu1 = some (u, p)) :
    u.state5GMM = ue.state5GMM := by
  by_cases h14 : iei = 14
  · subst h14
    simp [decIEdispatch] at h
    exact decIMEISVRequest_st _ _ _ _ h
  by_cases h18 : iei = 18
  · subst h18
    simp [decIEdispatch, Option.bind_eq_some] at h
    obtain ⟨p1, _, rfl, rfl⟩ := h
    rfl
  by_cases h21 : iei = 21
  · subst h21
    simp [decIEdispatch] at h
    exact decNSSAI_st _ _ _ _ h
  by_cases h22 : iei = 22
  · subst h22
    simp [decIEdispatch] at h
    exact decGPRSTimer2_st _ _ _ _ h
  by_cases h32 : iei = 32
  · subst h32
    simp [decIEdispatch] at h
    exact decAuthParamAUTN_st _ _ _ _ h
  by_cases h33 : iei = 33
  · subst h33
    simp [decIEdispatch] at h
    exact decAuthParamRAND_st _ _ _ _ h
  by_cases h41 : iei = 41
  · subst h41
    simp [decIEdispatch] at h
    exact decPDUAddress_st _ _ _ _ h
  by_cases h54 : iei = 54
  · subst h54
    simp [decIEdispatch] at h
    exact decAdditional5GSecInfo_st _ _ _ _ h
  by_cases h84 : iei = 84
  · subst h84
    simp [decIEdispatch] at h
    exact decTAIList_st _ _ _ _ h
  by_cases h89 : iei = 89
  · subst h89
    simp [decIEdispatch, Option.bind_eq_some] at h
    obtain ⟨p1, _, rfl, rfl⟩ := h
    rfl
  by_cases h94 : iei = 94
  · subst h94
    simp [decIEdispatch] at h
    exact decGPRSTimer3_st _ _ _ _ h
  by_cases h119 : iei = 119
  · subst h119
    simp [decIEdispatch] at h
    exact dec5GSMobileID_st _ _ _ _ h
  · simp [decIEdispatch, h14, h18, h21, h22, h32, h33, h41, h54, h84,
      h89, h94, h119] at h
    obtain ⟨rfl, rfl⟩ := h
    rfl

theorem decIEloop_st : ∀ (fuel : Nat) (known : Nat → Bool) (ue : UE)
    (pdu : List Nat) (u : UE) (p : List Nat),
    decIEloop fuel known ue pdu = some (u, p) →
    u.state5GMM = ue.state5GMM := by
  intro fuel
  induction fuel with
  | zero =>
    intro known ue pdu u p h
    simp [decIEloop] at h
  | succ n ih =>
    intro known ue pdu u p h
    cases pdu with
    | nil =>
      simp [decIEloop] at h
      obtain ⟨rfl, rfl⟩ := h
      rfl
    | cons b0 rest =>
      have hstep : decIEloop (n + 1) known ue (b0 :: rest) =
          if ¬ known (if 128 ≤ b0 then b0 / 16 else b0) then
            some (ue, b0 :: rest)
          else
            (decIEdispatch (if 128 ≤ b0 then b0 / 16 else b0) ue
              (if 128 ≤ b0 then (b0 &&& 15) :: rest else rest)).bind
              (fun r => decIEloop n known r.1 r.2) := rfl
      rw [hstep] at h
      cases hk : known (if 128 ≤ b0 then b0 / 16 else b0) with
      | false =>
        rw [hk] at h
        rw [if_pos (by simp)] at h
        simp at h
        obtain ⟨rfl, rfl⟩ := h
        rfl
      | true =>
        rw [hk] at h
        rw [if_neg (by simp)] at h
        simp only [Option.bind_eq_some] at h
        obtain ⟨⟨u1, p1⟩, h1, h2⟩ := h
        exact (ih _ _ _ _ _ h2).trans (decIEdispatch_st _ _ _ _ _ h1)

/-- C5 (amended): a successfully decoded Registration Accept sets the
receive state to received-Registration-Accept, so the next MakeNasPdu call
dispatches to MakeRegistrationComplete — but the decoder leaves the 5GMM
sublayer state exactly as it was: no transition to REGISTERED happens. -/
theorem regAccept_amended (ue : UE) (pdu : List Nat) (u2 : UE)
    (rest : List Nat) (h : decRegistrationAccept ue pdu = some (u2, rest)) :
    u2.state5GMM = ue.state5GMM ∧
    u2.Recv.state = rcvdRegistrationAccept ∧
    MakeNasPdu u2 = MakeRegistrationComplete u2 := by
  simp only [decRegistrationAccept, decInformationElement,
    Option.bind_eq_bind, Option.bind_eq_some] at h
  obtain ⟨p1, h1, h⟩ := h
  obtain ⟨⟨u1, p2⟩, h2, h3⟩ := h
  simp at h3
  obtain ⟨rfl, rfl⟩ := h3
  refine ⟨?_, rfl, ?_⟩
  · have hst := decIEloop_st _ _ _ _ _ _ h2
    exact hst
  · simp [MakeNasPdu, rcvdAuthenticationRequest, rcvdSecurityModeCommand,
      rcvdRegistrationAccept]

/-- C5 (witness): the amended statement applied to the test UE and the
test-vector Registration Accept body. -/
theorem regAccept_amended_witness :
    decRegistrationAccept testUE regAccBody =
      some ({testUE with Recv := ⟨⟨false, false⟩, 3,
        hexDecode "02f839cafe0000000001".toList, [⟨208, 93, [0, 0, 1]⟩],
        [⟨1, "010203", 0, ""⟩, ⟨1, "112233", 0, ""⟩], 720, 3600, []⟩}, []) ∧
    (({testUE with Recv := ⟨⟨false, false⟩, 3,
        hexDecode "02f839cafe0000000001".toList, [⟨208, 93, [0, 0, 1]⟩],
        [⟨1, "010203", 0, ""⟩, ⟨1, "112233", 0, ""⟩], 720, 3600, []⟩} :
          UE).state5GMM = testUE.state5GMM ∧
      ({testUE with Recv := ⟨⟨false, false⟩, 3,
        hexDecode "02f839cafe0000000001".toList, [⟨208, 93, [0, 0, 1]⟩],
        [⟨1, "010203", 0, ""⟩, ⟨1, "112233", 0, ""⟩], 720, 3600, []⟩} :
          UE).Recv.state = rcvdRegistrationAccept ∧
      MakeNasPdu {testUE with Recv := ⟨⟨false, false⟩, 3,
        hexDecode "02f839cafe0000000001".toList, [⟨208, 93, [0, 0, 1]⟩],
        [⟨1, "010203", 0, ""⟩, ⟨1, "112233", 0, ""⟩], 720, 3600, []⟩} =
      MakeRegistrationComplete {testUE with Recv := ⟨⟨false, false⟩, 3,
        hexDecode "02f839cafe0000000001".toList, [⟨208, 93, [0, 0, 1]⟩],
        [⟨1, "010203", 0, ""⟩, ⟨1, "112233", 0, ""⟩], 720, 3600, []⟩}) :=
  ⟨by decide,
    regAccept_amended testUE regAccBody
      {testUE with Recv := ⟨⟨false, false⟩, 3,
        hexDecode "02f839cafe0000000001".toList, [⟨208, 93, [0, 0, 1]⟩],
        [⟨1, "010203", 0, ""⟩, ⟨1, "112233", 0, ""⟩], 720, 3600, []⟩} []
      (by decide)⟩

/-- C5 (counterexample): a UE in 5GMM state REGISTERED-INITIATED that
decodes the test-vector Registration Accept stays in
REGISTERED-INITIATED; the state does not move to REGISTERED. -/
theorem regAccept_cex :
    (decRegistrationAccept
        {testUE with state5GMM := state5GMMRegisteredInitiated}
        regAccBody).map (fun r => r.1.state5GMM) =
      some state5GMMRegisteredInitiated ∧
    state5GMMRegisteredInitiated ≠ state5GMMRegistered := by
  decide

end Gnbsim
